import Mathlib

/-!
Shallow embedding of the sampling-and-derivation pipeline of the
System_Monitor repository (`Collectors.h`, `Collectors.cpp`, `main.cpp`).

Each collector owns mutable state; its `update()` runs
`do_collect → do_parse → do_calculate`.  We model every collector's state as
a structure, its refresh as a pure function of the state and the text made
available by the kernel source (`none` when the source cannot be opened),
and C++ exceptions (`std::stoi`, `std::string::substr`) with `Except`.

Machine integers are `Nat`/`Int` with explicit reduction modulo `2 ^ w`;
C++ `double` values are idealized as exact rationals (the code only parses,
stores, combines and compares them deterministically, so no claim depends
on rounding).  Formatted stream extraction (`operator>>`) follows the
C++11 rules: an extraction on an already-failed stream leaves the target
unchanged; reaching end-of-input while skipping whitespace fails and leaves
the target unchanged; a conversion failure stores 0 (for arithmetic types)
and fails; an out-of-range value stores the clamped bound and fails.
C++ locals that stay uninitialized when an extraction fails are given the
stand-in value 0 (for `char`, `'?'`); no theorem below depends on such a
value.
-/

/-- Modulus of a 64-bit machine word. -/
def W64 : Nat := 2 ^ 64

/-- Whitespace as classified by `std::isspace` in the C locale, used by
formatted stream extraction. -/
def isWs (c : Char) : Bool :=
  c = ' ' || c = '\t' || c = '\n' || c = '\x0b' || c = '\x0c' || c = '\r'

/-- Decimal digit test (`::isdigit` in the C locale). -/
def isDigitC (c : Char) : Bool := '0' ≤ c && c ≤ '9'

/-- Numeric value of a decimal digit character. -/
def digitVal (c : Char) : Nat := c.toNat - 48

/-- Value of a string of decimal digits. -/
def digitsToNat (ds : List Char) : Nat := ds.foldl (fun a c => 10 * a + digitVal c) 0

/-- State of a `std::istream`: remaining characters and the fail flag. -/
structure IStream where
  str : List Char
  fail : Bool
deriving DecidableEq

/-- Drop leading whitespace (the sentinel of a formatted input function). -/
def skipWs (s : List Char) : List Char := s.dropWhile isWs

/-- Strip an optional leading sign, returning whether it was `'-'`. -/
def splitSign : List Char → Bool × List Char
  | '-' :: cs => (true, cs)
  | '+' :: cs => (false, cs)
  | cs => (false, cs)

/-- Formatted extraction of an unsigned integer of width `w` bits
(`unsigned long long` for `w = 64`).  `old` is the current value of the
target object; per C++11 it is kept when the sentinel fails, a conversion
failure stores 0, and an out-of-range value stores the type's maximum, in
both failure cases setting `failbit`.  A `'-'` sign is accepted and the
value wrapped modulo `2 ^ 64` (`strtoull` semantics) before the range
check. -/
def extractU (w : Nat) (old : Nat) (st : IStream) : Nat × IStream :=
  if st.fail then (old, st)
  else
    match skipWs st.str with
    | [] => (old, ⟨[], true⟩)
    | c :: cs =>
      let (neg, body) := splitSign (c :: cs)
      let ds := body.takeWhile isDigitC
      if ds.isEmpty then (0, ⟨c :: cs, true⟩)
      else
        let rest := body.dropWhile isDigitC
        let v := digitsToNat ds
        if W64 ≤ v then (2 ^ w - 1, ⟨rest, true⟩)
        else
          let v64 := if neg then (W64 - v) % W64 else v
          if v64 ≤ 2 ^ w - 1 then (v64, ⟨rest, false⟩) else (2 ^ w - 1, ⟨rest, true⟩)

/-- Formatted extraction of a signed integer of width `w` bits (`int` for
`w = 32`, `int64_t`/`long long` for `w = 64`), with the C++11 store-0 /
clamp-and-fail behaviour of `num_get`. -/
def extractS (w : Nat) (old : Int) (st : IStream) : Int × IStream :=
  if st.fail then (old, st)
  else
    match skipWs st.str with
    | [] => (old, ⟨[], true⟩)
    | c :: cs =>
      let (neg, body) := splitSign (c :: cs)
      let ds := body.takeWhile isDigitC
      if ds.isEmpty then (0, ⟨c :: cs, true⟩)
      else
        let rest := body.dropWhile isDigitC
        let v : Int := if neg then -(digitsToNat ds : Int) else (digitsToNat ds : Int)
        if v < -(2 ^ (w - 1) : Int) then (-(2 ^ (w - 1) : Int), ⟨rest, true⟩)
        else if (2 ^ (w - 1) : Int) ≤ v then ((2 ^ (w - 1) : Int) - 1, ⟨rest, true⟩)
        else (v, ⟨rest, false⟩)

/-- Formatted extraction of a `std::string` token: skip whitespace, then
take the maximal run of non-whitespace characters.  When the sentinel
fails the target keeps its old value. -/
def extractWord (old : List Char) (st : IStream) : List Char × IStream :=
  if st.fail then (old, st)
  else
    match skipWs st.str with
    | [] => (old, ⟨[], true⟩)
    | c :: cs =>
      ((c :: cs).takeWhile (fun a => !isWs a), ⟨(c :: cs).dropWhile (fun a => !isWs a), false⟩)

/-- Formatted extraction of a `char`: skip whitespace and take one
character; the target keeps its old value on failure. -/
def extractChar (old : Char) (st : IStream) : Char × IStream :=
  if st.fail then (old, st)
  else
    match skipWs st.str with
    | [] => (old, ⟨[], true⟩)
    | c :: cs => (c, ⟨cs, false⟩)

/-- Formatted extraction of a `double`, idealized over `ℚ`: optional sign,
integer digits, optional fractional part, optional exponent.  Conversion
failure stores 0 and fails; sentinel failure keeps the old value. -/
def extractDouble (old : ℚ) (st : IStream) : ℚ × IStream :=
  if st.fail then (old, st)
  else
    match skipWs st.str with
    | [] => (old, ⟨[], true⟩)
    | c :: cs =>
      let (neg, body) := splitSign (c :: cs)
      let intDs := body.takeWhile isDigitC
      let afterInt := body.dropWhile isDigitC
      let (fracDs, afterFrac) :=
        match afterInt with
        | '.' :: t => (t.takeWhile isDigitC, t.dropWhile isDigitC)
        | _ => ([], afterInt)
      if intDs.isEmpty && fracDs.isEmpty then (0, ⟨c :: cs, true⟩)
      else
        let (expNeg, expDs, rest) :=
          match afterFrac with
          | 'e' :: t =>
            let (sn, b) := splitSign t
            let ds := b.takeWhile isDigitC
            if ds.isEmpty then (false, ([] : List Char), afterFrac)
            else (sn, ds, b.dropWhile isDigitC)
          | 'E' :: t =>
            let (sn, b) := splitSign t
            let ds := b.takeWhile isDigitC
            if ds.isEmpty then (false, ([] : List Char), afterFrac)
            else (sn, ds, b.dropWhile isDigitC)
          | _ => (false, [], afterFrac)
        let base : ℚ :=
          if fracDs.isEmpty then (digitsToNat intDs : ℚ)
          else ((digitsToNat intDs * 10 ^ fracDs.length + digitsToNat fracDs : ℕ) : ℚ) /
            ((10 ^ fracDs.length : ℕ) : ℚ)
        let scaled : ℚ :=
          if expDs.isEmpty then base
          else if expNeg then base / ((10 ^ digitsToNat expDs : ℕ) : ℚ)
          else base * ((10 ^ digitsToNat expDs : ℕ) : ℚ)
        ((if neg then -scaled else scaled), ⟨rest, false⟩)

/-- Split text into the lines delivered by a `std::getline` loop: each
`'\n'` terminates a line, and a final fragment without a terminating
newline still counts as a line.  `splitLines "" = []`. -/
def splitLines : List Char → List (List Char)
  | [] => []
  | c :: rest =>
    if c = '\n' then [] :: splitLines rest
    else
      match splitLines rest with
      | [] => [[c]]
      | l :: ls => (c :: l) :: ls

/-- First line of a text, as read by a single `std::getline`. -/
def firstLine (s : List Char) : List Char := s.takeWhile (fun c => c ≠ '\n')

/-- Exceptions the embedded code can raise (`std::stoi` /
`std::string::substr`). -/
inductive CppExn where
  | invalidArgument
  | outOfRange
deriving DecidableEq

/-- Model of `std::stoi`: skip whitespace, optional sign, decimal digits;
`std::invalid_argument` when no digits are found, `std::out_of_range` when
the value does not fit in `int`. -/
def stoiE (s : List Char) : Except CppExn Int :=
  let (neg, body) := splitSign (skipWs s)
  let ds := body.takeWhile isDigitC
  if ds.isEmpty then .error .invalidArgument
  else
    let v : Int := if neg then -(digitsToNat ds : Int) else (digitsToNat ds : Int)
    if v < -(2 ^ 31 : Int) then .error .outOfRange
    else if (2 ^ 31 : Int) ≤ v then .error .outOfRange
    else .ok v

/-- Model of `s.substr(pos)`: throws `std::out_of_range` when
`pos > s.size()`. -/
def substrFromE (s : List Char) (pos : Nat) : Except CppExn (List Char) :=
  if pos ≤ s.length then .ok (s.drop pos) else .error .outOfRange

/-- Does `pat` occur as a contiguous substring of `s`
(`std::string::find(pat) != npos`)? -/
def leadsWith : List Char → List Char → Bool
  | [], _ => true
  | _ :: _, [] => false
  | a :: as, b :: bs => a = b && leadsWith as bs

/-- Substring containment, `s.find(pat) != std::string::npos`. -/
def hasSub (pat : List Char) : List Char → Bool
  | [] => pat.isEmpty
  | b :: bs => leadsWith pat (b :: bs) || hasSub pat bs

-- ==================== CPUCollector ====================

/-- The eight cumulative tick counters of the aggregate `cpu` line of the
CPU source. -/
structure CPUCounters where
  user : Nat
  nice : Nat
  system : Nat
  idle : Nat
  iowait : Nat
  irq : Nat
  softirq : Nat
  steal : Nat
deriving DecidableEq

/-- Extraction of the label and the eight `unsigned long long` counters in
`CPUCollector::do_parse` (`ss >> cpu_label >> user >> nice >> ...`).  The
C++ locals are uninitialized; 0 is the stand-in for a counter whose
extraction never stores a value. -/
def cpuReadCounters (raw : List Char) : CPUCounters :=
  let s0 : IStream := ⟨raw, false⟩
  let (_cpu_label, s1) := extractWord [] s0
  let (user, s2) := extractU 64 0 s1
  let (nice, s3) := extractU 64 0 s2
  let (system, s4) := extractU 64 0 s3
  let (idle, s5) := extractU 64 0 s4
  let (iowait, s6) := extractU 64 0 s5
  let (irq, s7) := extractU 64 0 s6
  let (softirq, s8) := extractU 64 0 s7
  let (steal, _s9) := extractU 64 0 s8
  { user, nice, system, idle, iowait, irq, softirq, steal }

/-- The value stored into `curr_idle_`: `idle + iowait` in
`unsigned long long` arithmetic. -/
def CPUCounters.idleTicks (c : CPUCounters) : Nat := (c.idle + c.iowait) % W64

/-- The value stored into `curr_total_`: the sum of all eight counters in
`unsigned long long` arithmetic. -/
def CPUCounters.totalTicks (c : CPUCounters) : Nat :=
  (c.user + c.nice + c.system + c.idle + c.iowait + c.irq + c.softirq + c.steal) % W64

/-- Componentwise monotonicity of the eight cumulative counters between
two generations (the kernel guarantees the counters never decrease). -/
def CPUCounters.mono (a b : CPUCounters) : Prop :=
  a.user ≤ b.user ∧ a.nice ≤ b.nice ∧ a.system ≤ b.system ∧ a.idle ≤ b.idle ∧
    a.iowait ≤ b.iowait ∧ a.irq ≤ b.irq ∧ a.softirq ≤ b.softirq ∧ a.steal ≤ b.steal

instance (a b : CPUCounters) : Decidable (a.mono b) := by
  unfold CPUCounters.mono
  infer_instance

/-- The mathematical (unwrapped) sum of the eight counters. -/
def CPUCounters.sum (a : CPUCounters) : Nat :=
  a.user + a.nice + a.system + a.idle + a.iowait + a.irq + a.softirq + a.steal

/-- Mutable state of `CPUCollector`. -/
structure CPUState where
  raw : List Char
  prev_idle : Nat
  prev_total : Nat
  curr_idle : Nat
  curr_total : Nat
  usage_percent : ℚ
deriving DecidableEq

/-- A freshly constructed `CPUCollector` (all members zero-initialized). -/
def CPUState.init : CPUState :=
  { raw := [], prev_idle := 0, prev_total := 0, curr_idle := 0, curr_total := 0,
    usage_percent := 0 }

/-- `CPUCollector::do_collect`: read one line from the CPU source; when the
source cannot be opened (`src = none`) log an error and return, leaving
`raw_data_` untouched.  The returned flag records whether `LOG_ERROR` was
called. -/
def cpuCollect (st : CPUState) (src : Option (List Char)) : CPUState × Bool :=
  match src with
  | none => (st, true)
  | some content => ({ st with raw := firstLine content }, false)

/-- `CPUCollector::do_parse`: skip when `raw_data_` is empty, otherwise
save the current generation into the previous one and parse the counters
afresh. -/
def cpuParse (st : CPUState) : CPUState :=
  if st.raw = [] then st
  else
    let c := cpuReadCounters st.raw
    { st with
      prev_idle := st.curr_idle
      prev_total := st.curr_total
      curr_idle := c.idleTicks
      curr_total := c.totalTicks }

/-- `CPUCollector::do_calculate`: `total_diff` and `idle_diff` are computed
by `unsigned long long` subtraction (wrapping modulo `2 ^ 64`); the usage
percentage is updated only when `total_diff > 0`. -/
def cpuCalculate (st : CPUState) : CPUState :=
  let total_diff := (st.curr_total + W64 - st.prev_total) % W64
  let idle_diff := (st.curr_idle + W64 - st.prev_idle) % W64
  if 0 < total_diff then
    { st with
      usage_percent :=
        100 * (((total_diff + W64 - idle_diff) % W64 : Nat) : ℚ) / (total_diff : ℚ) }
  else st

/-- One `update()` of `CPUCollector`. -/
def cpuRefresh (st : CPUState) (src : Option (List Char)) : CPUState × Bool :=
  let (st1, logged) := cpuCollect st src
  (cpuCalculate (cpuParse st1), logged)

-- ==================== MemoryCollector ====================

/-- Mutable state of `MemoryCollector`. -/
structure MemState where
  raw : List Char
  total_kb : Nat
  free_kb : Nat
  available_kb : Nat
  buffers_kb : Nat
  cached_kb : Nat
  used_kb : Nat
  usage_percent : ℚ
deriving DecidableEq

/-- A freshly constructed `MemoryCollector`. -/
def MemState.init : MemState :=
  { raw := [], total_kb := 0, free_kb := 0, available_kb := 0, buffers_kb := 0,
    cached_kb := 0, used_kb := 0, usage_percent := 0 }

/-- One iteration of the line loop of `MemoryCollector::do_parse`
(`ss >> key >> value >> unit`, then the key comparisons).  The C++ local
`value` is uninitialized; 0 is the stand-in when no value is stored. -/
def memParseLine (st : MemState) (line : List Char) : MemState :=
  let s0 : IStream := ⟨line, false⟩
  let (key, s1) := extractWord [] s0
  let (value, s2) := extractU 64 0 s1
  let (_unit, _s3) := extractWord [] s2
  if key = "MemTotal:".data then { st with total_kb := value }
  else if key = "MemFree:".data then { st with free_kb := value }
  else if key = "MemAvailable:".data then { st with available_kb := value }
  else if key = "Buffers:".data then { st with buffers_kb := value }
  else if key = "Cached:".data then { st with cached_kb := value }
  else st

/-- `MemoryCollector::do_parse`: process `raw_data_` line by line. -/
def memParse (st : MemState) : MemState :=
  (splitLines st.raw).foldl memParseLine st

/-- `MemoryCollector::do_calculate`: `used_kb_ = total_kb_ - available_kb_`
in `uint64_t` arithmetic; the percentage is updated only when
`total_kb_ > 0`. -/
def memCalculate (st : MemState) : MemState :=
  let used := (st.total_kb + W64 - st.available_kb) % W64
  let st1 := { st with used_kb := used }
  if 0 < st1.total_kb then
    { st1 with usage_percent := 100 * (used : ℚ) / (st1.total_kb : ℚ) }
  else st1

/-- `MemoryCollector::do_collect`: read the whole memory source, or log and
keep the stale `raw_data_` when it cannot be opened. -/
def memCollect (st : MemState) (src : Option (List Char)) : MemState × Bool :=
  match src with
  | none => (st, true)
  | some content => ({ st with raw := content }, false)

/-- One `update()` of `MemoryCollector`. -/
def memRefresh (st : MemState) (src : Option (List Char)) : MemState × Bool :=
  let (st1, logged) := memCollect st src
  (memCalculate (memParse st1), logged)

-- ==================== DiskCollector ====================

/-- One parsed and retained disk-stats record. -/
structure DiskStats where
  name : List Char
  reads_completed : Nat
  writes_completed : Nat
  sectors_read : Nat
  sectors_written : Nat
deriving DecidableEq

/-- The filtering rule of `DiskCollector::do_parse`: keep a device name
only when it does not contain `"loop"`, contains `"sd"`, `"vd"` or
`"nvme"`, and survives the partition test (`is_partition` is computed only
for names longer than two characters: a trailing digit marks a partition
for non-NVMe names, the letter `'p'` anywhere in the name marks one for
NVMe names). -/
def diskKeep (name : List Char) : Bool :=
  if !hasSub "loop".data name &&
      (hasSub "sd".data name || hasSub "vd".data name || hasSub "nvme".data name) then
    let is_part1 : Bool :=
      if 2 < name.length then
        match name.getLast? with
        | some last => isDigitC last && !hasSub "nvme".data name
        | none => false
      else false
    let is_part2 : Bool :=
      if 2 < name.length then hasSub "nvme".data name && hasSub "p".data name
      else false
    !(is_part1 || is_part2) || (hasSub "nvme".data name && !hasSub "p".data name)
  else false

/-- The device name token of a disk-stats line (the third extraction of
`DiskCollector::do_parse`). -/
def diskLineName (line : List Char) : List Char :=
  let s0 : IStream := ⟨line, false⟩
  let (_major, s1) := extractS 32 0 s0
  let (_minor, s2) := extractS 32 0 s1
  (extractWord [] s2).1

/-- One iteration of the line loop of `DiskCollector::do_parse`: extract
`major`, `minor`, `name` and the eight counters, and append a record when
the name passes the filter.  The C++ locals are uninitialized; 0 is the
stand-in for counters whose extraction never stores a value. -/
def diskParseLine (disks : List DiskStats) (line : List Char) : List DiskStats :=
  let s0 : IStream := ⟨line, false⟩
  let (_major, s1) := extractS 32 0 s0
  let (_minor, s2) := extractS 32 0 s1
  let (name, s3) := extractWord [] s2
  let (reads_completed, s4) := extractU 64 0 s3
  let (_reads_merged, s5) := extractU 64 0 s4
  let (sectors_read, s6) := extractU 64 0 s5
  let (_time_reading, s7) := extractU 64 0 s6
  let (writes_completed, s8) := extractU 64 0 s7
  let (_writes_merged, s9) := extractU 64 0 s8
  let (sectors_written, s10) := extractU 64 0 s9
  let (_time_writing, _s11) := extractU 64 0 s10
  if diskKeep name then
    disks ++ [{ name, reads_completed, writes_completed, sectors_read, sectors_written }]
  else disks

/-- Mutable state of `DiskCollector`. -/
structure DiskState where
  raw : List Char
  disks : List DiskStats
deriving DecidableEq

/-- A freshly constructed `DiskCollector`. -/
def DiskState.init : DiskState := { raw := [], disks := [] }

/-- `DiskCollector::do_parse`: clear `disks_` and process `raw_data_` line
by line. -/
def diskParse (st : DiskState) : DiskState :=
  { st with disks := (splitLines st.raw).foldl diskParseLine [] }

/-- One `update()` of `DiskCollector` (collect, then parse; no calculate
step). -/
def diskRefresh (st : DiskState) (src : Option (List Char)) : DiskState × Bool :=
  match src with
  | none => (diskParse st, true)
  | some content => (diskParse { st with raw := content }, false)

-- ==================== NetworkCollector ====================

/-- One parsed network-interface record (fields default to 0 in the C++
struct). -/
structure InterfaceStats where
  name : List Char
  rx_bytes : Nat
  tx_bytes : Nat
  rx_packets : Nat
  tx_packets : Nat
deriving DecidableEq

/-- One post-header line of `NetworkCollector::do_parse`: a line without a
colon is skipped; otherwise the text left of the first colon, stripped of
leading blanks and tabs, names the interface, and the text right of it is
parsed as `rx_bytes rx_packets`, six ignored fields, `tx_bytes
tx_packets`. -/
def netParseLine (line : List Char) : Option InterfaceStats :=
  match line.findIdx? (fun c => c = ':') with
  | none => none
  | some colon_pos =>
    let iface_name := (line.take colon_pos).dropWhile (fun c => c = ' ' || c = '\t')
    let stats_str := line.drop (colon_pos + 1)
    let s0 : IStream := ⟨stats_str, false⟩
    let (rx_bytes, s1) := extractU 64 0 s0
    let (rx_packets, s2) := extractU 64 0 s1
    let (_d1, s3) := extractU 64 0 s2
    let (_d2, s4) := extractU 64 0 s3
    let (_d3, s5) := extractU 64 0 s4
    let (_d4, s6) := extractU 64 0 s5
    let (_d5, s7) := extractU 64 0 s6
    let (_d6, s8) := extractU 64 0 s7
    let (tx_bytes, s9) := extractU 64 0 s8
    let (tx_packets, _s10) := extractU 64 0 s9
    some { name := iface_name, rx_bytes, tx_bytes, rx_packets, tx_packets }

/-- One iteration of the line loop of `NetworkCollector::do_parse`: the
counter is incremented, the first two (header) lines are skipped, and a
record is appended for every later line that parses. -/
def netStep (acc : List InterfaceStats × Nat) (line : List Char) :
    List InterfaceStats × Nat :=
  let n := acc.2 + 1
  if n ≤ 2 then (acc.1, n)
  else
    match netParseLine line with
    | none => (acc.1, n)
    | some s => (acc.1 ++ [s], n)

/-- `NetworkCollector::do_parse`: walk the lines with the counter starting
at 0. -/
def netParse (raw : List Char) : List InterfaceStats :=
  ((splitLines raw).foldl netStep ([], 0)).1

/-- Mutable state of `NetworkCollector`. -/
structure NetState where
  raw : List Char
  interfaces : List InterfaceStats
deriving DecidableEq

/-- A freshly constructed `NetworkCollector`. -/
def NetState.init : NetState := { raw := [], interfaces := [] }

/-- One `update()` of `NetworkCollector`. -/
def netRefresh (st : NetState) (src : Option (List Char)) : NetState × Bool :=
  match src with
  | none => ({ st with interfaces := netParse st.raw }, true)
  | some content => ({ st with raw := content, interfaces := netParse content }, false)

-- ==================== ProcessCollector ====================

/-- One parsed process record. -/
structure ProcessInfo where
  pid : Int
  name : List Char
  state : Char
  vsize : Nat
  rss : Int
deriving DecidableEq

/-- A directory entry under the process root as `readdir` delivers it,
together with the content of its `stat` file (`none` when that file cannot
be opened). -/
structure DirEntry where
  isDir : Bool
  name : List Char
  stat : Option (List Char)
deriving DecidableEq

/-- Index of the first occurrence of `c` (`std::string::find`). -/
def findIdxOf (c : Char) (s : List Char) : Option Nat :=
  s.findIdx? (fun a => a = c)

/-- Index of the last occurrence of `c` (`std::string::rfind`). -/
def rfindIdx (c : Char) (s : List Char) : Option Nat :=
  (s.reverse.findIdx? (fun a => a = c)).map (fun i => s.length - 1 - i)

/-- Skip `n` chained numeric extractions, keeping only the stream state.
This models the run of discarded fields of a process stat line between the
state character and `vsize` (`ppid pgrp session tty_nr tpgid` as `int`,
`flags` as `unsigned`, `minflt cminflt majflt cmajflt utime stime` as
`uint64_t`, `cutime cstime priority nice num_threads itrealvalue` as
`int64_t`, `starttime` as `uint64_t`); their values are never used, so only
the fail-flag chaining matters here and every field is skipped with the
width and signedness of `int64_t`. -/
def skipNumeric : Nat → IStream → IStream
  | 0, st => st
  | n + 1, st => skipNumeric n (extractS 64 0 st).2

/-- Parse of one process stat line inside `ProcessCollector::do_parse`,
given the pid obtained from the directory-entry name: the name is the
substring between the first `'('` and the last `')'` (the count
`end - start - 1` is `size_t` arithmetic and `substr` clamps it), the tail
starts at `end + 2` (`substr` throws `std::out_of_range` when that is past
the end), and the remaining fields are whitespace-separated.  `'?'` is the
stand-in for the uninitialized C++ `char state` when its extraction never
stores a value.  Returns `none` when the line has no `'('` or no `')'`. -/
def procParseStat (pid : Int) (line : List Char) : Except CppExn (Option ProcessInfo) :=
  match findIdxOf '(' line, rfindIdx ')' line with
  | some start, some stop =>
    let count := (stop + W64 - (start + 1)) % W64
    let nm := (line.drop (start + 1)).take count
    match substrFromE line (stop + 2) with
    | .error e => .error e
    | .ok rest =>
      let s0 : IStream := ⟨rest, false⟩
      let (state, s1) := extractChar '?' s0
      let s2 := skipNumeric 19 s1
      let (vsize, s3) := extractU 64 0 s2
      let (rss, _s4) := extractS 64 0 s3
      .ok (some { pid, name := nm, state, vsize, rss })
  | _, _ => .ok none

/-- Accumulator of the directory scan: the growing process list and the
two counters. -/
structure ProcAcc where
  processes : List ProcessInfo
  total : Nat
  running : Nat
deriving DecidableEq

/-- One `readdir` iteration of `ProcessCollector::do_parse`: only
directories whose name is entirely decimal digits are treated as
processes; `std::stoi` converts the name; a `stat` file that cannot be
opened, an empty `stat` file, or a line without parentheses contributes
nothing; otherwise the record is appended, `total` is incremented, and
`running` is incremented when the state is `'R'`. -/
def procScanEntry (acc : ProcAcc) (e : DirEntry) : Except CppExn ProcAcc :=
  if e.isDir then
    if !e.name.isEmpty && e.name.all isDigitC then
      match stoiE e.name with
      | .error err => .error err
      | .ok pid =>
        match e.stat with
        | none => .ok acc
        | some content =>
          if content = [] then .ok acc
          else
            match procParseStat pid (firstLine content) with
            | .error err => .error err
            | .ok none => .ok acc
            | .ok (some info) =>
              .ok { processes := acc.processes ++ [info]
                    total := acc.total + 1
                    running := acc.running + (if info.state = 'R' then 1 else 0) }
    else .ok acc
  else .ok acc

/-- Insertion of one record into a list sorted by descending `rss`. -/
def insRssDesc (p : ProcessInfo) : List ProcessInfo → List ProcessInfo
  | [] => [p]
  | q :: rest => if p.rss > q.rss then p :: q :: rest else q :: insRssDesc p rest

/-- The `std::sort` call of `ProcessCollector::do_parse` with comparator
`a.rss > b.rss`, realized as an insertion sort (the C++ sort is unstable
and unspecified beyond producing some ordering of the same records, which
any sorting algorithm models). -/
def sortRssDesc : List ProcessInfo → List ProcessInfo
  | [] => []
  | p :: rest => insRssDesc p (sortRssDesc rest)

/-- Mutable state of `ProcessCollector`. -/
structure ProcState where
  raw : List Char
  processes : List ProcessInfo
  total_processes : Nat
  running_processes : Nat
deriving DecidableEq

/-- A freshly constructed `ProcessCollector`. -/
def ProcState.init : ProcState :=
  { raw := [], processes := [], total_processes := 0, running_processes := 0 }

/-- `ProcessCollector::do_parse`: when the process root cannot be opened
(`dir = none`) log and return, leaving everything unchanged; otherwise
clear the list and counters, scan every entry, and sort the result by
descending resident set size. -/
def procParse (st : ProcState) (dir : Option (List DirEntry)) : Except CppExn ProcState :=
  match dir with
  | none => .ok st
  | some entries =>
    match entries.foldlM procScanEntry ⟨[], 0, 0⟩ with
    | .error e => .error e
    | .ok acc =>
      .ok { st with
            processes := sortRssDesc acc.processes
            total_processes := acc.total
            running_processes := acc.running }

/-- One `update()` of `ProcessCollector`: `do_collect` clears `raw_data_`,
then the parse scans the directory.  The flag records whether `LOG_ERROR`
was called. -/
def procRefresh (st : ProcState) (dir : Option (List DirEntry)) :
    Except CppExn (ProcState × Bool) :=
  match procParse { st with raw := [] } dir with
  | .error e => .error e
  | .ok st1 => .ok (st1, dir.isNone)

/-- The rendering loop of `ProcessCollector::print_result`: at most the
first five records of the (sorted) list are reported; this projection
keeps their resident set sizes. -/
def procTop5Rss (st : ProcState) : List Int :=
  (st.processes.take 5).map (fun p => p.rss)

-- ==================== SystemCollector ====================

/-- Mutable state of `SystemCollector`. -/
structure SysState where
  raw : List Char
  uptime_seconds : ℚ
  load_1min : ℚ
  load_5min : ℚ
  load_15min : ℚ
  running_tasks : Int
  total_tasks : Int
deriving DecidableEq

/-- A freshly constructed `SystemCollector`. -/
def SysState.init : SysState :=
  { raw := [], uptime_seconds := 0, load_1min := 0, load_5min := 0, load_15min := 0,
    running_tasks := 0, total_tasks := 0 }

/-- `SystemCollector::do_collect`: read the uptime value and the whole
load-average source.  Neither branch logs anything when its source cannot
be opened — the failure is silently ignored and the old value (or the
stale `raw_data_`) is kept. -/
def sysCollect (st : SysState) (uptimeSrc loadavgSrc : Option (List Char)) : SysState :=
  let st1 :=
    match uptimeSrc with
    | none => st
    | some content =>
      let (up, _) := extractDouble st.uptime_seconds ⟨content, false⟩
      { st with uptime_seconds := up }
  match loadavgSrc with
  | none => st1
  | some content => { st1 with raw := content }

/-- `SystemCollector::do_parse`: extract the three load averages and the
`running/total` token from `raw_data_`, then split the token at `'/'` and
convert both sides with `std::stoi` (which can throw). -/
def sysParse (st : SysState) : Except CppExn SysState :=
  let s0 : IStream := ⟨st.raw, false⟩
  let (l1, s1) := extractDouble st.load_1min s0
  let (l5, s2) := extractDouble st.load_5min s1
  let (l15, s3) := extractDouble st.load_15min s2
  let (running_str, _s4) := extractWord [] s3
  let st1 := { st with load_1min := l1, load_5min := l5, load_15min := l15 }
  match findIdxOf '/' running_str with
  | none => .ok st1
  | some slash_pos =>
    match stoiE (running_str.take slash_pos) with
    | .error e => .error e
    | .ok r =>
      match stoiE (running_str.drop (slash_pos + 1)) with
      | .error e => .error e
      | .ok t => .ok { st1 with running_tasks := r, total_tasks := t }

/-- One `update()` of `SystemCollector`.  The flag records whether
`LOG_ERROR` was called — `SystemCollector` never calls it. -/
def sysRefresh (st : SysState) (uptimeSrc loadavgSrc : Option (List Char)) :
    Except CppExn (SysState × Bool) :=
  match sysParse (sysCollect st uptimeSrc loadavgSrc) with
  | .error e => .error e
  | .ok st1 => .ok (st1, false)

-- ==================== main loop (one tick) ====================

/-- The states of all six collectors, in registration order
(`REGISTER_COLLECTOR`: System, CPU, Memory, Disk, Network, Process). -/
structure MonitorState where
  sys : SysState
  cpu : CPUState
  mem : MemState
  disk : DiskState
  net : NetState
  proc : ProcState
deriving DecidableEq

/-- The text each kernel source delivers on one tick (`none` = the path
cannot be opened). -/
structure TickInputs where
  uptime : Option (List Char)
  loadavg : Option (List Char)
  cpuSrc : Option (List Char)
  memSrc : Option (List Char)
  diskSrc : Option (List Char)
  netSrc : Option (List Char)
  procDir : Option (List DirEntry)
deriving DecidableEq

/-- One tick of the main loop: `collectors[i]->update()` for every
collector in registration order.  An exception escaping one collector's
`update()` propagates out of `main` (nothing catches it), so the remaining
collectors of that tick never run — modeled by the `Except` bind. -/
def tickAll (st : MonitorState) (inp : TickInputs) : Except CppExn MonitorState :=
  match sysRefresh st.sys inp.uptime inp.loadavg with
  | .error e => .error e
  | .ok (sys1, _) =>
    let (cpu1, _) := cpuRefresh st.cpu inp.cpuSrc
    let (mem1, _) := memRefresh st.mem inp.memSrc
    let (disk1, _) := diskRefresh st.disk inp.diskSrc
    let (net1, _) := netRefresh st.net inp.netSrc
    match procRefresh st.proc inp.procDir with
    | .error e => .error e
    | .ok (proc1, _) => .ok { sys := sys1, cpu := cpu1, mem := mem1, disk := disk1,
                              net := net1, proc := proc1 }

/-- All collectors in their freshly constructed state. -/
def MonitorState.init : MonitorState :=
  { sys := SysState.init, cpu := CPUState.init, mem := MemState.init,
    disk := DiskState.init, net := NetState.init, proc := ProcState.init }

-- ==================== key-value characterization of the memory parse ====================

/-- The five optional key values a run of memory lines can assign; used to
characterize `memParse` (the last assignment of a key wins, keys that
never occur keep the previous field value). -/
structure MemVals where
  total : Option Nat
  free : Option Nat
  avail : Option Nat
  buffers : Option Nat
  cached : Option Nat
deriving DecidableEq

/-- No key assigned yet. -/
def MemVals.empty : MemVals := ⟨none, none, none, none, none⟩

/-- The assignment one memory line performs, on the `MemVals` abstraction
(same extraction chain as `memParseLine`). -/
def memLineUpd (m : MemVals) (line : List Char) : MemVals :=
  let s0 : IStream := ⟨line, false⟩
  let (key, s1) := extractWord [] s0
  let (value, s2) := extractU 64 0 s1
  let (_unit, _s3) := extractWord [] s2
  if key = "MemTotal:".data then { m with total := some value }
  else if key = "MemFree:".data then { m with free := some value }
  else if key = "MemAvailable:".data then { m with avail := some value }
  else if key = "Buffers:".data then { m with buffers := some value }
  else if key = "Cached:".data then { m with cached := some value }
  else m

/-- Apply collected key values to a memory state (unassigned keys keep the
old field). -/
def memApply (m : MemVals) (st : MemState) : MemState :=
  { st with
    total_kb := m.total.getD st.total_kb
    free_kb := m.free.getD st.free_kb
    available_kb := m.avail.getD st.available_kb
    buffers_kb := m.buffers.getD st.buffers_kb
    cached_kb := m.cached.getD st.cached_kb }

-- ==================== spec-side and well-formedness definitions ====================

/-- Modelled from the spec's words for the partition rule (C4): "a name
ending in a digit is a partition unless it is an NVMe-style name (which
instead uses a partition-suffix marker within the name to detect
partitions)".  This is the spec-side definition, to be compared with the
code's `diskKeep`. -/
def specIsPartition (name : List Char) : Bool :=
  if hasSub "nvme".data name then hasSub "p".data name
  else
    match name.getLast? with
    | some c => isDigitC c
    | none => false

/-- The `running/total` token exactly as `SystemCollector::do_parse`
extracts it from `raw_data_` (the stream transitions of the three
load extractions do not depend on the previous member values). -/
def sysRunningStr (raw : List Char) : List Char :=
  let s0 : IStream := ⟨raw, false⟩
  let (_l1, s1) := extractDouble 0 s0
  let (_l5, s2) := extractDouble 0 s1
  let (_l15, s3) := extractDouble 0 s2
  (extractWord [] s3).1

/-- The load-average text is benign for `SystemCollector::do_parse`: its
task token either has no slash or both slash parts are accepted by
`std::stoi`. -/
def sysLoadTextOK (raw : List Char) : Bool :=
  match findIdxOf '/' (sysRunningStr raw) with
  | none => true
  | some p =>
    (stoiE ((sysRunningStr raw).take p)).isOk &&
      (stoiE ((sysRunningStr raw).drop (p + 1))).isOk

/-- A stat-file content is benign for `ProcessCollector::do_parse`: either
it is empty, or its first line has no parenthesis pair, or the position
two past its last `')'` is not past the end of the line. -/
def statContentOK (content : List Char) : Bool :=
  if content = [] then true
  else
    let line := firstLine content
    match findIdxOf '(' line, rfindIdx ')' line with
    | some _, some stop => decide (stop + 2 ≤ line.length)
    | _, _ => true

/-- A directory entry is benign for `ProcessCollector::do_parse`: when it
is a digit-named directory, its pid fits in `int` and its stat content is
benign. -/
def procEntryOK (e : DirEntry) : Bool :=
  if e.isDir && (!e.name.isEmpty && e.name.all isDigitC) then
    (stoiE e.name).isOk &&
      (match e.stat with | none => true | some c => statContentOK c)
  else true

/-- The process root is either unreachable or all its entries are benign. -/
def procDirOK : Option (List DirEntry) → Bool
  | none => true
  | some entries => entries.all procEntryOK

-- ==================== helper lemmas ====================

theorem leadsWith_length {p s : List Char} (h : leadsWith p s = true) :
    p.length ≤ s.length := by
  induction p generalizing s with
  | nil => simp
  | cons a as ih =>
    cases s with
    | nil => simp [leadsWith] at h
    | cons b bs =>
      simp only [leadsWith, Bool.and_eq_true] at h
      have := ih h.2
      simp only [List.length_cons]
      omega

theorem leadsWith_eq_of_length {p s : List Char} (h : leadsWith p s = true)
    (hl : s.length = p.length) : s = p := by
  induction p generalizing s with
  | nil =>
    cases s with
    | nil => rfl
    | cons b bs => simp at hl
  | cons a as ih =>
    cases s with
    | nil => simp [leadsWith] at h
    | cons b bs =>
      simp only [leadsWith, Bool.and_eq_true, decide_eq_true_eq] at h
      simp only [List.length_cons, Nat.add_right_cancel_iff] at hl
      rw [ih h.2 hl, h.1]

theorem hasSub_length {p s : List Char} (h : hasSub p s = true) :
    p.length ≤ s.length := by
  induction s with
  | nil =>
    simp only [hasSub, List.isEmpty_iff] at h
    simp [h]
  | cons b bs ih =>
    simp only [hasSub, Bool.or_eq_true] at h
    rcases h with h | h
    · exact leadsWith_length h
    · have := ih h
      simp only [List.length_cons]
      omega

theorem hasSub_eq_of_length {p s : List Char} (h : hasSub p s = true)
    (hl : s.length = p.length) : s = p := by
  cases s with
  | nil =>
    simp only [hasSub, List.isEmpty_iff] at h
    rw [h]
  | cons b bs =>
    simp only [hasSub, Bool.or_eq_true] at h
    rcases h with h | h
    · exact leadsWith_eq_of_length h hl
    · have := hasSub_length h
      simp only [List.length_cons] at hl
      omega

theorem diskParseLine_length (disks : List DiskStats) (line : List Char) :
    (diskParseLine disks line).length =
      disks.length + (if diskKeep (diskLineName line) then 1 else 0) := by
  unfold diskParseLine diskLineName
  rcases h1 : extractS 32 0 ⟨line, false⟩ with ⟨a1, t1⟩
  rcases h2 : extractS 32 0 t1 with ⟨a2, t2⟩
  rcases h3 : extractWord [] t2 with ⟨nm, t3⟩
  simp only [h1, h2, h3]
  by_cases hk : diskKeep nm = true <;> simp [hk]

/-- C4: the disk collector's filter keeps a device name exactly when it
has no `"loop"` marker, contains one of the physical-disk markers `"sd"`,
`"vd"`, `"nvme"`, and is not a partition in the spec's sense (trailing
digit for non-NVMe names, a `'p'` in the name for NVMe names); in
particular `loop3` and the partitions `sda1`, `nvme0n1p1` are excluded
while `sda` and `nvme0n1` are kept, and each kept line appends exactly one
record. -/
theorem disk_filter_spec :
    (∀ name : List Char,
      diskKeep name =
        (!hasSub "loop".data name &&
          (hasSub "sd".data name || hasSub "vd".data name || hasSub "nvme".data name) &&
          !specIsPartition name))
    ∧ diskKeep "loop3".data = false
    ∧ diskKeep "sda".data = true
    ∧ diskKeep "sda1".data = false
    ∧ diskKeep "nvme0n1".data = true
    ∧ diskKeep "nvme0n1p1".data = false
    ∧ (∀ (disks : List DiskStats) (line : List Char),
        (diskParseLine disks line).length =
          disks.length + (if diskKeep (diskLineName line) then 1 else 0)) := by
  refine ⟨?_, by decide, by decide, by decide, by decide, by decide, diskParseLine_length⟩
  intro name
  by_cases hloop : hasSub "loop".data name = true
  · simp [diskKeep, hloop]
  · rw [Bool.not_eq_true] at hloop
    by_cases hnv : hasSub "nvme".data name = true
    · have hlen : 2 < name.length := by
        have h4 := hasSub_length hnv
        rw [show ("nvme".data).length = 4 from rfl] at h4
        omega
      cases hgl : name.getLast? with
      | none =>
        have : name ≠ [] := by
          intro h
          rw [h] at hlen
          simp at hlen
        rw [List.getLast?_eq_none_iff] at hgl
        exact absurd hgl this
      | some last =>
        by_cases hp : hasSub "p".data name = true <;>
          simp [diskKeep, specIsPartition, hloop, hnv, hgl, hp, hlen]
    · rw [Bool.not_eq_true] at hnv
      by_cases hsdvd : (hasSub "sd".data name || hasSub "vd".data name) = true
      · by_cases hlen : 2 < name.length
        · cases hgl : name.getLast? with
          | none =>
            have hne : name ≠ [] := by
              intro h
              rw [h] at hlen
              simp at hlen
            rw [List.getLast?_eq_none_iff] at hgl
            exact absurd hgl hne
          | some last =>
            rcases Bool.or_eq_true _ _ |>.mp hsdvd with h | h <;>
              by_cases hd : isDigitC last = true <;>
                simp [diskKeep, specIsPartition, hloop, hnv, hgl, hlen, hd, h]
        · have h2 : name.length = 2 := by
            rcases Bool.or_eq_true _ _ |>.mp hsdvd with h | h
            · have hx := hasSub_length h
              rw [show ("sd".data).length = 2 from rfl] at hx
              omega
            · have hx := hasSub_length h
              rw [show ("vd".data).length = 2 from rfl] at hx
              omega
          have hname : name = "sd".data ∨ name = "vd".data := by
            rcases Bool.or_eq_true _ _ |>.mp hsdvd with h | h
            · refine Or.inl (hasSub_eq_of_length h ?_)
              rw [show ("sd".data).length = 2 from rfl]
              exact h2
            · refine Or.inr (hasSub_eq_of_length h ?_)
              rw [show ("vd".data).length = 2 from rfl]
              exact h2
          rcases hname with h | h <;> subst h <;> decide
      · simp only [Bool.or_eq_true, not_or, Bool.not_eq_true] at hsdvd
        simp [diskKeep, specIsPartition, hloop, hnv, hsdvd.1, hsdvd.2]

/-- C8: parsing a network source consisting of two header lines and the
line `  eth0: 1000 10 0 0 0 0 0 0 2000 20 0 0 0 0 0 0` yields exactly one
interface record, named `eth0`, with rx_bytes 1000, rx_packets 10,
tx_bytes 2000, tx_packets 20. -/
theorem net_parse_example :
    netParse ("Inter-|   Receive                | Transmit\n face |bytes    packets|bytes    packets\n  eth0: 1000 10 0 0 0 0 0 0 2000 20 0 0 0 0 0 0".data) =
      [{ name := "eth0".data, rx_bytes := 1000, tx_bytes := 2000, rx_packets := 10,
         tx_packets := 20 }] := by
  decide

theorem net_foldl_from (L : List (List Char)) (acc : List InterfaceStats) (n : Nat)
    (h : 2 ≤ n) :
    (L.foldl netStep (acc, n)).1 = acc ++ L.filterMap netParseLine := by
  induction L generalizing acc n with
  | nil => simp
  | cons l L ih =>
    simp only [List.foldl_cons, List.filterMap_cons]
    have hn : ¬ (n + 1 ≤ 2) := by omega
    cases hp : netParseLine l with
    | none =>
      have hstep : netStep (acc, n) l = (acc, n + 1) := by
        simp [netStep, hn, hp]
      rw [hstep, ih acc (n + 1) (by omega)]
    | some s =>
      have hstep : netStep (acc, n) l = (acc ++ [s], n + 1) := by
        simp [netStep, hn, hp]
      rw [hstep, ih (acc ++ [s]) (n + 1) (by omega)]
      simp

theorem netParse_eq_filterMap (raw : List Char) :
    netParse raw = ((splitLines raw).drop 2).filterMap netParseLine := by
  unfold netParse
  rcases hL : splitLines raw with _ | ⟨l1, _ | ⟨l2, rest⟩⟩
  · rfl
  · rfl
  · simp only [List.foldl_cons]
    have e1 : netStep (([] : List InterfaceStats), 0) l1 = ([], 1) := rfl
    have e2 : netStep (([] : List InterfaceStats), 1) l2 = ([], 2) := rfl
    rw [e1, e2]
    simpa using net_foldl_from rest [] 2 (by omega)

/-- C10: in the network collector's parse, a post-header line without a
colon yields no record, so the number of interface records equals the
number of post-header lines containing a colon. -/
theorem net_colon_line_count (raw : List Char) :
    (netParse raw).length =
      (((splitLines raw).drop 2).filter (fun line => line.any (fun c => c = ':'))).length := by
  rw [netParse_eq_filterMap]
  generalize (splitLines raw).drop 2 = L
  induction L with
  | nil => rfl
  | cons l L ih =>
    simp only [List.filterMap_cons, List.filter_cons]
    cases hf : l.findIdx? (fun c => c = ':') with
    | none =>
      have hn : netParseLine l = none := by
        unfold netParseLine
        rw [hf]
      have ha : l.any (fun c => c = ':') = false := by
        have h2 : (l.findIdx? (fun c => c = ':')).isSome = l.any (fun c => c = ':') :=
          List.findIdx?_isSome
        rw [hf] at h2
        simpa using h2.symm
      simp [hn, ha, ih]
    | some i =>
      have hs : (netParseLine l).isSome = true := by
        unfold netParseLine
        rw [hf]
        rfl
      obtain ⟨s, hs⟩ := Option.isSome_iff_exists.mp hs
      have ha : l.any (fun c => c = ':') = true := by
        have h2 : (l.findIdx? (fun c => c = ':')).isSome = l.any (fun c => c = ':') :=
          List.findIdx?_isSome
        rw [hf] at h2
        simpa using h2.symm
      simp [hs, ha, ih]

theorem wrapSub_eq {a b : Nat} (hba : b ≤ a) (ha : a - b < W64) :
    (a + W64 - b) % W64 = a - b := by
  have h1 : a + W64 - b = (a - b) + W64 := by omega
  rw [h1, Nat.add_mod_right, Nat.mod_eq_of_lt ha]

theorem mem_insRssDesc {x p : ProcessInfo} {l : List ProcessInfo}
    (h : x ∈ insRssDesc p l) : x = p ∨ x ∈ l := by
  induction l with
  | nil =>
    simp [insRssDesc] at h
    exact Or.inl h
  | cons q rest ih =>
    by_cases hc : p.rss > q.rss
    · simp only [insRssDesc, if_pos hc, List.mem_cons] at h
      rcases h with h | h | h
      · exact Or.inl h
      · exact Or.inr (List.mem_cons.mpr (Or.inl h))
      · exact Or.inr (List.mem_cons.mpr (Or.inr h))
    · simp only [insRssDesc, if_neg hc, List.mem_cons] at h
      rcases h with h | h
      · exact Or.inr (List.mem_cons.mpr (Or.inl h))
      · rcases ih h with h2 | h2
        · exact Or.inl h2
        · exact Or.inr (List.mem_cons.mpr (Or.inr h2))

theorem insRssDesc_pairwise {p : ProcessInfo} {l : List ProcessInfo}
    (h : l.Pairwise (fun a b => b.rss ≤ a.rss)) :
    (insRssDesc p l).Pairwise (fun a b => b.rss ≤ a.rss) := by
  induction l with
  | nil => simp [insRssDesc]
  | cons q rest ih =>
    rw [List.pairwise_cons] at h
    by_cases hc : p.rss > q.rss
    · simp only [insRssDesc, if_pos hc]
      rw [List.pairwise_cons]
      constructor
      · intro x hx
        simp only [List.mem_cons] at hx
        rcases hx with hx | hx
        · subst hx
          omega
        · have := h.1 x hx
          omega
      · rw [List.pairwise_cons]
        exact h
    · simp only [insRssDesc, if_neg hc]
      rw [List.pairwise_cons]
      constructor
      · intro x hx
        rcases mem_insRssDesc hx with hx | hx
        · subst hx
          omega
        · exact h.1 x hx
      · exact ih h.2

theorem sortRssDesc_pairwise (l : List ProcessInfo) :
    (sortRssDesc l).Pairwise (fun a b => b.rss ≤ a.rss) := by
  induction l with
  | nil => simp [sortRssDesc]
  | cons p rest ih => exact insRssDesc_pairwise ih

/-- C6: after a successful refresh the process list is sorted in
descending order of resident set size, the rendering reports at most five
entries, and rendering records with resident sizes 5, 50, 1, 100 yields
exactly the list 100, 50, 5, 1. -/
theorem proc_sorted_top5 :
    (∀ (st : ProcState) (entries : List DirEntry) (st' : ProcState) (b : Bool),
      procRefresh st (some entries) = .ok (st', b) →
      st'.processes.Pairwise (fun a b => b.rss ≤ a.rss))
    ∧ (∀ st : ProcState, (procTop5Rss st).length ≤ 5)
    ∧ procTop5Rss
        { raw := [],
          processes := sortRssDesc
            [⟨1, [], 'S', 0, 5⟩, ⟨2, [], 'S', 0, 50⟩, ⟨3, [], 'S', 0, 1⟩,
             ⟨4, [], 'S', 0, 100⟩],
          total_processes := 4, running_processes := 0 } = [100, 50, 5, 1] := by
  refine ⟨?_, ?_, by decide⟩
  · intro st entries st' b h
    simp only [procRefresh, procParse] at h
    cases hf : List.foldlM procScanEntry ⟨[], 0, 0⟩ entries with
    | error e =>
      rw [hf] at h
      simp at h
    | ok acc =>
      rw [hf] at h
      simp only [Except.ok.injEq, Prod.mk.injEq] at h
      obtain ⟨h1, _h2⟩ := h
      rw [← h1]
      exact sortRssDesc_pairwise acc.processes
  · intro st
    simp only [procTop5Rss, List.length_map, List.length_take]
    omega

/-- C6 witness: refreshing with one concrete running process produces a
concrete state to which the sortedness theorem applies. -/
theorem proc_sorted_top5_witness :
    procRefresh ProcState.init (some [⟨true, "3".data, some "3 (x) R 1".data⟩]) =
      .ok ({ raw := [], processes := [⟨3, "x".data, 'R', 0, 0⟩], total_processes := 1,
             running_processes := 1 }, false)
    ∧ ({ raw := [], processes := [⟨3, "x".data, 'R', 0, 0⟩], total_processes := 1,
         running_processes := 1 } : ProcState).processes.Pairwise
        (fun a b => b.rss ≤ a.rss) :=
  ⟨rfl, proc_sorted_top5.1 ProcState.init [⟨true, "3".data, some "3 (x) R 1".data⟩] _ false rfl⟩

theorem procScanEntry_shape (acc : ProcAcc) (e : DirEntry) (acc1 : ProcAcc)
    (h : procScanEntry acc e = .ok acc1) :
    acc1 = acc ∨ ∃ info : ProcessInfo,
      acc1 = ⟨acc.processes ++ [info], acc.total + 1,
              acc.running + (if info.state = 'R' then 1 else 0)⟩ := by
  unfold procScanEntry at h
  split at h
  · split at h
    · split at h
      · cases h
      · split at h
        · injection h with h
          exact Or.inl h.symm
        · split at h
          · injection h with h
            exact Or.inl h.symm
          · split at h
            · cases h
            · injection h with h
              exact Or.inl h.symm
            · injection h with h
              exact Or.inr ⟨_, h.symm⟩
    · injection h with h
      exact Or.inl h.symm
  · injection h with h
    exact Or.inl h.symm

theorem procScan_counts (entries : List DirEntry) (acc res : ProcAcc)
    (h : entries.foldlM procScanEntry acc = .ok res)
    (ht : acc.total = acc.processes.length)
    (hr : acc.running = acc.processes.countP (fun i => i.state = 'R')) :
    res.total = res.processes.length ∧
      res.running = res.processes.countP (fun i => i.state = 'R') := by
  induction entries generalizing acc with
  | nil =>
    simp only [List.foldlM_nil] at h
    injection h with h
    subst h
    exact ⟨ht, hr⟩
  | cons e es ih =>
    rw [List.foldlM_cons] at h
    cases hstep : procScanEntry acc e with
    | error err =>
      rw [hstep] at h
      simp [Bind.bind, Except.bind] at h
    | ok acc1 =>
      rw [hstep] at h
      simp only [Bind.bind, Except.bind] at h
      refine ih acc1 h ?_ ?_
      all_goals
        rcases procScanEntry_shape acc e acc1 hstep with hs | ⟨info, hs⟩ <;> subst hs
      · exact ht
      · simp [ht]
      · exact hr
      · simp [hr, List.countP_append, List.countP_cons]

theorem procParseStat_eq (pid : Int) (line : List Char) (start stop : Nat)
    (hs : findIdxOf '(' line = some start) (he : rfindIdx ')' line = some stop) :
    procParseStat pid line =
      match substrFromE line (stop + 2) with
      | .error e => .error e
      | .ok rest =>
        let s0 : IStream := ⟨rest, false⟩
        let (state, s1) := extractChar '?' s0
        let s2 := skipNumeric 19 s1
        let (vsize, s3) := extractU 64 0 s2
        let (rss, _s4) := extractS 64 0 s3
        .ok (some { pid,
                    name := (line.drop (start + 1)).take ((stop + W64 - (start + 1)) % W64),
                    state, vsize, rss }) := by
  unfold procParseStat
  rw [hs, he]

theorem procParseStat_name (pid : Int) (line : List Char) (start stop : Nat)
    (hs : findIdxOf '(' line = some start) (he : rfindIdx ')' line = some stop)
    (hlt : start < stop) (hend : stop + 2 ≤ line.length) (hW : stop < W64) :
    ∃ info : ProcessInfo, procParseStat pid line = .ok (some info) ∧
      info.pid = pid ∧ info.name = (line.drop (start + 1)).take (stop - start - 1) := by
  have hsub : substrFromE line (stop + 2) = .ok (line.drop (stop + 2)) := by
    unfold substrFromE
    rw [if_pos hend]
  rw [procParseStat_eq pid line start stop hs he, hsub]
  refine ⟨_, rfl, rfl, ?_⟩
  show (line.drop (start + 1)).take ((stop + W64 - (start + 1)) % W64) =
    (line.drop (start + 1)).take (stop - start - 1)
  rw [wrapSub_eq (by omega) (by omega)]
  congr 1

/-- C5: a directory entry whose name is not entirely decimal digits never
contributes a process; the stat line `1234 (my proc) R 1` of the directory
entry `1234` parses to pid 1234, name `my proc`, state `'R'`; over any
scan the total count equals the number of parsed records and the running
count equals the number of records in state `'R'`; and the parsed name is
always the text between the first `'('` and the last `')'`. -/
theorem proc_scan_properties :
    (∀ (acc : ProcAcc) (e : DirEntry), e.name.all isDigitC = false →
      procScanEntry acc e = .ok acc)
    ∧ (procScanEntry ⟨[], 0, 0⟩ ⟨true, "1234".data, some "1234 (my proc) R 1".data⟩ =
        .ok ⟨[⟨1234, "my proc".data, 'R', 0, 0⟩], 1, 1⟩)
    ∧ (∀ (entries : List DirEntry) (res : ProcAcc),
        entries.foldlM procScanEntry ⟨[], 0, 0⟩ = .ok res →
        res.total = res.processes.length ∧
          res.running = res.processes.countP (fun i => i.state = 'R'))
    ∧ (∀ (pid : Int) (line : List Char) (start stop : Nat),
        findIdxOf '(' line = some start → rfindIdx ')' line = some stop →
        start < stop → stop + 2 ≤ line.length → stop < W64 →
        ∃ info : ProcessInfo, procParseStat pid line = .ok (some info) ∧
          info.pid = pid ∧ info.name = (line.drop (start + 1)).take (stop - start - 1)) := by
  refine ⟨?_, by rfl, ?_, procParseStat_name⟩
  · intro acc e hn
    unfold procScanEntry
    by_cases hd : e.isDir = true
    · rw [if_pos hd, if_neg ?_]
      rw [hn, Bool.and_false]
      simp
    · rw [if_neg hd]
  · intro entries res h
    exact procScan_counts entries ⟨[], 0, 0⟩ res h rfl rfl

/-- C5 witness: concrete instances for the three hypothesis-bearing parts
of the scan-properties theorem. -/
theorem proc_scan_properties_witness :
    (procScanEntry ⟨[], 0, 0⟩ ⟨true, "abc".data, none⟩ = .ok ⟨[], 0, 0⟩)
    ∧ ((⟨[⟨7, "a b".data, 'S', 0, 0⟩], 1, 0⟩ : ProcAcc).total =
        (⟨[⟨7, "a b".data, 'S', 0, 0⟩], 1, 0⟩ : ProcAcc).processes.length ∧
       (⟨[⟨7, "a b".data, 'S', 0, 0⟩], 1, 0⟩ : ProcAcc).running =
        (⟨[⟨7, "a b".data, 'S', 0, 0⟩], 1, 0⟩ : ProcAcc).processes.countP
          (fun i => i.state = 'R'))
    ∧ (∃ info : ProcessInfo,
        procParseStat 7 "7 (a b) S 1".data = .ok (some info) ∧ info.pid = 7 ∧
          info.name = (("7 (a b) S 1".data).drop (2 + 1)).take (6 - 2 - 1)) :=
  ⟨proc_scan_properties.1 ⟨[], 0, 0⟩ ⟨true, "abc".data, none⟩ (by decide),
   proc_scan_properties.2.2.1 [⟨true, "7".data, some "7 (a b) S 1".data⟩]
     ⟨[⟨7, "a b".data, 'S', 0, 0⟩], 1, 0⟩ rfl,
   proc_scan_properties.2.2.2 7 "7 (a b) S 1".data 2 6 (by decide) (by decide)
     (by decide) (by decide) (by decide)⟩

theorem cpuCalculate_proj (s : CPUState) :
    (cpuCalculate s).curr_total = s.curr_total ∧ (cpuCalculate s).prev_total = s.prev_total ∧
      (cpuCalculate s).curr_idle = s.curr_idle ∧ (cpuCalculate s).prev_idle = s.prev_idle ∧
      (cpuCalculate s).raw = s.raw := by
  by_cases hd : 0 < (s.curr_total + W64 - s.prev_total) % W64 <;> simp [cpuCalculate, hd]

theorem cpuCalculate_usage_eq (s : CPUState) :
    (cpuCalculate s).usage_percent =
      if 0 < (s.curr_total + W64 - s.prev_total) % W64 then
        100 * ((((s.curr_total + W64 - s.prev_total) % W64 + W64 -
          (s.curr_idle + W64 - s.prev_idle) % W64) % W64 : Nat) : ℚ) /
          (((s.curr_total + W64 - s.prev_total) % W64 : Nat) : ℚ)
      else s.usage_percent := by
  by_cases hd : 0 < (s.curr_total + W64 - s.prev_total) % W64 <;> simp [cpuCalculate, hd]

theorem cpuParse_record (s : CPUState) (h : ¬ s.raw = []) :
    cpuParse s =
      { s with
        prev_idle := s.curr_idle
        prev_total := s.curr_total
        curr_idle := (cpuReadCounters s.raw).idleTicks
        curr_total := (cpuReadCounters s.raw).totalTicks } := by
  simp [cpuParse, h]

theorem cpuRefresh_two_usage (st : CPUState) (l1 l2 : List Char)
    (h1 : firstLine l1 ≠ []) (h2 : firstLine l2 ≠ []) :
    ((cpuRefresh (cpuRefresh st (some l1)).1 (some l2)).1).usage_percent =
      if 0 < ((cpuReadCounters (firstLine l2)).totalTicks + W64 -
          (cpuReadCounters (firstLine l1)).totalTicks) % W64 then
        100 * (((((cpuReadCounters (firstLine l2)).totalTicks + W64 -
            (cpuReadCounters (firstLine l1)).totalTicks) % W64 + W64 -
            ((cpuReadCounters (firstLine l2)).idleTicks + W64 -
              (cpuReadCounters (firstLine l1)).idleTicks) % W64) % W64 : Nat) : ℚ) /
          ((((cpuReadCounters (firstLine l2)).totalTicks + W64 -
            (cpuReadCounters (firstLine l1)).totalTicks) % W64 : Nat) : ℚ)
      else (cpuRefresh st (some l1)).1.usage_percent := by
  have hA1 := cpuParse_record { st with raw := firstLine l1 } (by simpa using h1)
  simp only at hA1
  have hB := cpuParse_record
    { cpuCalculate (cpuParse { st with raw := firstLine l1 }) with raw := firstLine l2 }
    (by simpa using h2)
  simp only at hB
  obtain ⟨hq1, _hq2, hq3, _hq4, _hq5⟩ :=
    cpuCalculate_proj (cpuParse { st with raw := firstLine l1 })
  show (cpuCalculate (cpuParse
      { cpuCalculate (cpuParse { st with raw := firstLine l1 }) with
        raw := firstLine l2 })).usage_percent = _
  rw [hB, cpuCalculate_usage_eq]
  simp only
  rw [hq1, hq3, hA1]
  have e0 : (cpuRefresh st (some l1)).1 =
      cpuCalculate (cpuParse { st with raw := firstLine l1 }) := rfl
  rw [e0, hA1]

/-- C1 counterexample: on the very first sample (freshly constructed
collector, previous generation all zero) with the line
`cpu 3 0 0 1 0 0 0 0`, the derived usage percentage is 75 (the utilization
since boot), not 0 as the claim states. -/
theorem cpu_first_sample_not_zero :
    (cpuRefresh CPUState.init (some "cpu 3 0 0 1 0 0 0 0".data)).1.usage_percent ≠ 0 := by
  have h : (cpuRefresh CPUState.init (some "cpu 3 0 0 1 0 0 0 0".data)).1.usage_percent =
      100 * ((3 : Nat) : ℚ) / ((4 : Nat) : ℚ) := rfl
  rw [h]
  norm_num

/-- C1 amended: the usage percentage is left at its last value when the
wrapped total difference is zero — in particular when the current and
previous stored totals are equal, and when the same cumulative line is
parsed twice in a row; on the very first sample the percentage equals
`100·(T − I)/T` (with wrapping subtraction) for the parsed total `T` and
idle `I`, and is 0 exactly when `T = 0`. -/
theorem cpu_usage_hold_and_first_sample :
    (∀ st : CPUState, st.curr_total = st.prev_total →
      (cpuCalculate st).usage_percent = st.usage_percent)
    ∧ (∀ (st : CPUState) (l : List Char), firstLine l ≠ [] →
      (cpuRefresh (cpuRefresh st (some l)).1 (some l)).1.usage_percent =
        (cpuRefresh st (some l)).1.usage_percent)
    ∧ (∀ l : List Char,
      (cpuRefresh CPUState.init (some l)).1.usage_percent =
        if (cpuReadCounters (firstLine l)).totalTicks = 0 then 0
        else
          100 * ((((cpuReadCounters (firstLine l)).totalTicks + W64 -
            (cpuReadCounters (firstLine l)).idleTicks) % W64 : Nat) : ℚ) /
            (((cpuReadCounters (firstLine l)).totalTicks : Nat) : ℚ)) := by
  refine ⟨?_, ?_, ?_⟩
  · intro st htot
    rw [cpuCalculate_usage_eq, htot, Nat.add_sub_cancel_left, Nat.mod_self]
    simp
  · intro st l hl
    rw [cpuRefresh_two_usage st l l hl hl, Nat.add_sub_cancel_left, Nat.mod_self]
    simp
  · intro l
    by_cases hl : firstLine l = []
    · have lhs0 : (cpuRefresh CPUState.init (some l)).1.usage_percent = 0 := by
        have e1 : (cpuRefresh CPUState.init (some l)).1 =
            cpuCalculate (cpuParse { CPUState.init with raw := firstLine l }) := rfl
        rw [e1, hl]
        rfl
      rw [lhs0, hl]
      rfl
    · rw [show (cpuRefresh CPUState.init (some l)).1 =
          cpuCalculate (cpuParse { CPUState.init with raw := firstLine l }) from rfl]
      rw [cpuParse_record _ (by simpa using hl)]
      simp only [CPUState.init]
      rw [cpuCalculate_usage_eq]
      simp only
      have hT : (cpuReadCounters (firstLine l)).totalTicks < W64 := by
        show _ % W64 < W64
        exact Nat.mod_lt _ (by norm_num [W64])
      have hI : (cpuReadCounters (firstLine l)).idleTicks < W64 := by
        show _ % W64 < W64
        exact Nat.mod_lt _ (by norm_num [W64])
      have hTd : ((cpuReadCounters (firstLine l)).totalTicks + W64 - 0) % W64 =
          (cpuReadCounters (firstLine l)).totalTicks := by
        rw [Nat.sub_zero, Nat.add_mod_right, Nat.mod_eq_of_lt hT]
      have hId : ((cpuReadCounters (firstLine l)).idleTicks + W64 - 0) % W64 =
          (cpuReadCounters (firstLine l)).idleTicks := by
        rw [Nat.sub_zero, Nat.add_mod_right, Nat.mod_eq_of_lt hI]
      rw [hTd, hId]
      by_cases h0 : (cpuReadCounters (firstLine l)).totalTicks = 0
      · rw [if_neg (by omega), if_pos h0]
      · rw [if_pos (Nat.pos_of_ne_zero h0), if_neg h0]

/-- C1 witness: the hold-the-last-value parts applied at concrete inputs. -/
theorem cpu_usage_hold_witness :
    (CPUState.init.curr_total = CPUState.init.prev_total ∧
      (cpuCalculate CPUState.init).usage_percent = CPUState.init.usage_percent)
    ∧ (firstLine "cpu 1 0 0 1 0 0 0 0".data ≠ [] ∧
      (cpuRefresh (cpuRefresh CPUState.init (some "cpu 1 0 0 1 0 0 0 0".data)).1
          (some "cpu 1 0 0 1 0 0 0 0".data)).1.usage_percent =
        (cpuRefresh CPUState.init (some "cpu 1 0 0 1 0 0 0 0".data)).1.usage_percent) :=
  ⟨⟨rfl, cpu_usage_hold_and_first_sample.1 CPUState.init rfl⟩,
   ⟨by decide, cpu_usage_hold_and_first_sample.2.1 CPUState.init _ (by decide)⟩⟩

/-- C2 counterexample: two consecutive samples with componentwise
non-decreasing counters and strictly increasing total ticks (both as
stored modulo `2 ^ 64` and as mathematical sums) whose idle sum overflows
64 bits; the wrapped subtractions in `do_calculate` then yield a usage
percentage of 300, outside `[0, 100]`. -/
theorem cpu_usage_overflow_counterexample :
    ((cpuReadCounters (firstLine "cpu 0 0 0 5 0 0 0 0".data)).mono
      (cpuReadCounters
        (firstLine "cpu 6 0 0 9223372036854775808 9223372036854775809 0 0 0".data))
    ∧ (cpuReadCounters (firstLine "cpu 0 0 0 5 0 0 0 0".data)).totalTicks <
      (cpuReadCounters
        (firstLine "cpu 6 0 0 9223372036854775808 9223372036854775809 0 0 0".data)).totalTicks
    ∧ (cpuReadCounters (firstLine "cpu 0 0 0 5 0 0 0 0".data)).sum <
      (cpuReadCounters
        (firstLine "cpu 6 0 0 9223372036854775808 9223372036854775809 0 0 0".data)).sum)
    ∧ ¬ ((cpuRefresh (cpuRefresh CPUState.init (some "cpu 0 0 0 5 0 0 0 0".data)).1
        (some "cpu 6 0 0 9223372036854775808 9223372036854775809 0 0 0".data)).1.usage_percent
          ≤ 100) := by
  constructor
  · exact ⟨by decide, by decide, by decide⟩
  · have h : (cpuRefresh (cpuRefresh CPUState.init (some "cpu 0 0 0 5 0 0 0 0".data)).1
        (some "cpu 6 0 0 9223372036854775808 9223372036854775809 0 0 0".data)).1.usage_percent =
        100 * ((6 : Nat) : ℚ) / ((2 : Nat) : ℚ) := rfl
    rw [h]
    norm_num

/-- C2 amended: for two consecutive samples with componentwise
non-decreasing counters and strictly increasing total ticks, the derived
usage percentage lies in `[0, 100]`, provided additionally that the
newer sample's counter sum does not overflow 64 bits. -/
theorem cpu_usage_bounds_of_mono (st : CPUState) (l1 l2 : List Char)
    (h1 : firstLine l1 ≠ []) (h2 : firstLine l2 ≠ [])
    (hm : (cpuReadCounters (firstLine l1)).mono (cpuReadCounters (firstLine l2)))
    (hof : (cpuReadCounters (firstLine l2)).sum < W64)
    (hst : (cpuReadCounters (firstLine l1)).sum < (cpuReadCounters (firstLine l2)).sum) :
    0 ≤ ((cpuRefresh (cpuRefresh st (some l1)).1 (some l2)).1).usage_percent ∧
      ((cpuRefresh (cpuRefresh st (some l1)).1 (some l2)).1).usage_percent ≤ 100 := by
  obtain ⟨hu, hn, hs, hi, hw, hq, hsi, hsl⟩ := hm
  have h1of : (cpuReadCounters (firstLine l1)).sum < W64 := lt_trans hst hof
  have hI1le : (cpuReadCounters (firstLine l1)).idle +
      (cpuReadCounters (firstLine l1)).iowait ≤ (cpuReadCounters (firstLine l1)).sum := by
    unfold CPUCounters.sum
    omega
  have hI2le : (cpuReadCounters (firstLine l2)).idle +
      (cpuReadCounters (firstLine l2)).iowait ≤ (cpuReadCounters (firstLine l2)).sum := by
    unfold CPUCounters.sum
    omega
  have hT1 : (cpuReadCounters (firstLine l1)).totalTicks =
      (cpuReadCounters (firstLine l1)).sum := by
    show (cpuReadCounters (firstLine l1)).sum % W64 = (cpuReadCounters (firstLine l1)).sum
    exact Nat.mod_eq_of_lt h1of
  have hT2 : (cpuReadCounters (firstLine l2)).totalTicks =
      (cpuReadCounters (firstLine l2)).sum := by
    show (cpuReadCounters (firstLine l2)).sum % W64 = (cpuReadCounters (firstLine l2)).sum
    exact Nat.mod_eq_of_lt hof
  have hJ1 : (cpuReadCounters (firstLine l1)).idleTicks =
      (cpuReadCounters (firstLine l1)).idle + (cpuReadCounters (firstLine l1)).iowait :=
    Nat.mod_eq_of_lt (lt_of_le_of_lt hI1le h1of)
  have hJ2 : (cpuReadCounters (firstLine l2)).idleTicks =
      (cpuReadCounters (firstLine l2)).idle + (cpuReadCounters (firstLine l2)).iowait :=
    Nat.mod_eq_of_lt (lt_of_le_of_lt hI2le hof)
  rw [cpuRefresh_two_usage st l1 l2 h1 h2, hT1, hT2, hJ1, hJ2]
  have hDD : ((cpuReadCounters (firstLine l2)).sum + W64 -
      (cpuReadCounters (firstLine l1)).sum) % W64 =
      (cpuReadCounters (firstLine l2)).sum - (cpuReadCounters (firstLine l1)).sum :=
    wrapSub_eq (le_of_lt hst) (by omega)
  have hII : ((cpuReadCounters (firstLine l2)).idle + (cpuReadCounters (firstLine l2)).iowait +
        W64 - ((cpuReadCounters (firstLine l1)).idle +
        (cpuReadCounters (firstLine l1)).iowait)) % W64 =
      (cpuReadCounters (firstLine l2)).idle + (cpuReadCounters (firstLine l2)).iowait -
        ((cpuReadCounters (firstLine l1)).idle + (cpuReadCounters (firstLine l1)).iowait) :=
    wrapSub_eq (by omega) (by omega)
  rw [hDD, hII]
  have key : (cpuReadCounters (firstLine l2)).idle + (cpuReadCounters (firstLine l2)).iowait -
      ((cpuReadCounters (firstLine l1)).idle + (cpuReadCounters (firstLine l1)).iowait) ≤
      (cpuReadCounters (firstLine l2)).sum - (cpuReadCounters (firstLine l1)).sum := by
    unfold CPUCounters.sum
    omega
  have hDpos : 0 < (cpuReadCounters (firstLine l2)).sum -
      (cpuReadCounters (firstLine l1)).sum := by omega
  rw [wrapSub_eq key (by omega), if_pos hDpos]
  constructor
  · positivity
  · rw [div_le_iff₀ (by exact_mod_cast hDpos)]
    have hcast : ((((cpuReadCounters (firstLine l2)).sum -
          (cpuReadCounters (firstLine l1)).sum) -
          ((cpuReadCounters (firstLine l2)).idle + (cpuReadCounters (firstLine l2)).iowait -
            ((cpuReadCounters (firstLine l1)).idle +
              (cpuReadCounters (firstLine l1)).iowait)) : Nat) : ℚ) ≤
        (((cpuReadCounters (firstLine l2)).sum - (cpuReadCounters (firstLine l1)).sum : Nat) : ℚ) := by
      exact_mod_cast Nat.sub_le _ _
    linarith

/-- C2 witness: two concrete small samples satisfying all hypotheses. -/
theorem cpu_usage_bounds_witness :
    (firstLine "cpu 1 0 0 1 0 0 0 0".data ≠ [] ∧
      firstLine "cpu 2 0 0 1 0 0 0 0".data ≠ [] ∧
      (cpuReadCounters (firstLine "cpu 1 0 0 1 0 0 0 0".data)).mono
        (cpuReadCounters (firstLine "cpu 2 0 0 1 0 0 0 0".data)) ∧
      (cpuReadCounters (firstLine "cpu 2 0 0 1 0 0 0 0".data)).sum < W64 ∧
      (cpuReadCounters (firstLine "cpu 1 0 0 1 0 0 0 0".data)).sum <
        (cpuReadCounters (firstLine "cpu 2 0 0 1 0 0 0 0".data)).sum)
    ∧ (0 ≤ ((cpuRefresh (cpuRefresh CPUState.init (some "cpu 1 0 0 1 0 0 0 0".data)).1
        (some "cpu 2 0 0 1 0 0 0 0".data)).1).usage_percent ∧
      ((cpuRefresh (cpuRefresh CPUState.init (some "cpu 1 0 0 1 0 0 0 0".data)).1
        (some "cpu 2 0 0 1 0 0 0 0".data)).1).usage_percent ≤ 100) :=
  ⟨⟨by decide, by decide, by decide, by decide, by decide⟩,
   cpu_usage_bounds_of_mono CPUState.init _ _ (by decide) (by decide) (by decide)
     (by decide) (by decide)⟩

theorem memParseLine_usage (st : MemState) (line : List Char) :
    (memParseLine st line).usage_percent = st.usage_percent := by
  unfold memParseLine
  rcases h1 : extractWord [] ⟨line, false⟩ with ⟨key, s1⟩
  rcases h2 : extractU 64 0 s1 with ⟨value, s2⟩
  rcases h3 : extractWord [] s2 with ⟨u, s3⟩
  simp only [h1, h2, h3]
  repeat' split
  all_goals rfl

theorem memParse_fold_usage (L : List (List Char)) (st : MemState) :
    (L.foldl memParseLine st).usage_percent = st.usage_percent := by
  induction L generalizing st with
  | nil => rfl
  | cons l L ih => rw [List.foldl_cons, ih, memParseLine_usage]

theorem memCalculate_proj (s : MemState) :
    (memCalculate s).total_kb = s.total_kb ∧ (memCalculate s).available_kb = s.available_kb ∧
      (memCalculate s).used_kb = (s.total_kb + W64 - s.available_kb) % W64 := by
  by_cases h : 0 < s.total_kb <;> simp [memCalculate, h]

theorem memCalculate_usage (s : MemState) :
    (memCalculate s).usage_percent =
      if 0 < s.total_kb then
        100 * (((s.total_kb + W64 - s.available_kb) % W64 : Nat) : ℚ) /
          ((s.total_kb : Nat) : ℚ)
      else s.usage_percent := by
  by_cases h : 0 < s.total_kb <;> simp [memCalculate, h]

/-- C7 counterexample: after a tick with `MemTotal: 100 kB` /
`MemAvailable: 50 kB` (usage 50%), a tick whose text sets `MemTotal: 0 kB`
leaves `total_kb = 0` but the usage percentage stays at its previous value
50 instead of becoming 0, and `used_kb` wraps instead of being the exact
difference. -/
theorem mem_usage_stale_counterexample :
    ((memRefresh (memRefresh MemState.init
        (some "MemTotal: 100 kB\nMemAvailable: 50 kB".data)).1
        (some "MemTotal: 0 kB".data)).1.total_kb = 0)
    ∧ ((memRefresh (memRefresh MemState.init
        (some "MemTotal: 100 kB\nMemAvailable: 50 kB".data)).1
        (some "MemTotal: 0 kB".data)).1.usage_percent ≠ 0) := by
  refine ⟨rfl, ?_⟩
  have h : (memRefresh (memRefresh MemState.init
      (some "MemTotal: 100 kB\nMemAvailable: 50 kB".data)).1
      (some "MemTotal: 0 kB".data)).1.usage_percent =
      100 * ((50 : Nat) : ℚ) / ((100 : Nat) : ℚ) := rfl
  rw [h]
  norm_num

/-- C7 amended: after a refresh, `used_kb` is the wrapping 64-bit
difference `total − available`, equal to the exact difference whenever
`available ≤ total`; the usage percentage equals `100·used/total` whenever
`total > 0`, and is left at its previous value when `total = 0` (0 on a
freshly constructed collector). -/
theorem memRefresh_used (st : MemState) (raw : List Char)
    (hle : (memRefresh st (some raw)).1.available_kb ≤ (memRefresh st (some raw)).1.total_kb)
    (hlt : (memRefresh st (some raw)).1.total_kb < W64) :
    (memRefresh st (some raw)).1.used_kb =
      (memRefresh st (some raw)).1.total_kb - (memRefresh st (some raw)).1.available_kb := by
  have e : (memRefresh st (some raw)).1 =
      memCalculate (memParse { st with raw := raw }) := rfl
  obtain ⟨ht, ha, hu⟩ := memCalculate_proj (memParse { st with raw := raw })
  rw [e] at hle hlt ⊢
  rw [ht, ha] at hle
  rw [ht] at hlt
  rw [hu, ht, ha]
  exact wrapSub_eq hle (by omega)

theorem memRefresh_usage_pos (st : MemState) (raw : List Char)
    (hpos : 0 < (memRefresh st (some raw)).1.total_kb) :
    (memRefresh st (some raw)).1.usage_percent =
      100 * (((memRefresh st (some raw)).1.used_kb : Nat) : ℚ) /
        (((memRefresh st (some raw)).1.total_kb : Nat) : ℚ) := by
  have e : (memRefresh st (some raw)).1 =
      memCalculate (memParse { st with raw := raw }) := rfl
  obtain ⟨ht, ha, hu⟩ := memCalculate_proj (memParse { st with raw := raw })
  rw [e] at hpos ⊢
  rw [ht] at hpos
  rw [memCalculate_usage, if_pos hpos, hu, ht]

theorem memRefresh_usage_zero (st : MemState) (raw : List Char)
    (h0 : (memRefresh st (some raw)).1.total_kb = 0) :
    (memRefresh st (some raw)).1.usage_percent = st.usage_percent := by
  have e : (memRefresh st (some raw)).1 =
      memCalculate (memParse { st with raw := raw }) := rfl
  obtain ⟨ht, _ha, _hu⟩ := memCalculate_proj (memParse { st with raw := raw })
  rw [e] at h0 ⊢
  rw [ht] at h0
  rw [memCalculate_usage, if_neg (by omega)]
  exact memParse_fold_usage _ _

theorem mem_derivation (st : MemState) (raw : List Char) :
    ((memRefresh st (some raw)).1.available_kb ≤ (memRefresh st (some raw)).1.total_kb →
      (memRefresh st (some raw)).1.total_kb < W64 →
      (memRefresh st (some raw)).1.used_kb =
        (memRefresh st (some raw)).1.total_kb - (memRefresh st (some raw)).1.available_kb)
    ∧ (0 < (memRefresh st (some raw)).1.total_kb →
      (memRefresh st (some raw)).1.usage_percent =
        100 * (((memRefresh st (some raw)).1.used_kb : Nat) : ℚ) /
          (((memRefresh st (some raw)).1.total_kb : Nat) : ℚ))
    ∧ ((memRefresh st (some raw)).1.total_kb = 0 →
      (memRefresh st (some raw)).1.usage_percent = st.usage_percent)
    ∧ ((memRefresh MemState.init (some raw)).1.total_kb = 0 →
      (memRefresh MemState.init (some raw)).1.usage_percent = 0) :=
  ⟨memRefresh_used st raw, memRefresh_usage_pos st raw, memRefresh_usage_zero st raw,
   fun h0 => memRefresh_usage_zero MemState.init raw h0⟩

/-- C7 witness: the derivation theorem applied to a concrete memory text
with total 100 and available 25. -/
theorem mem_derivation_witness :
    ((memRefresh MemState.init (some "MemTotal: 100 kB\nMemAvailable: 25 kB".data)).1.available_kb ≤
        (memRefresh MemState.init (some "MemTotal: 100 kB\nMemAvailable: 25 kB".data)).1.total_kb ∧
      (memRefresh MemState.init (some "MemTotal: 100 kB\nMemAvailable: 25 kB".data)).1.total_kb < W64 ∧
      (memRefresh MemState.init (some "MemTotal: 100 kB\nMemAvailable: 25 kB".data)).1.used_kb =
        (memRefresh MemState.init (some "MemTotal: 100 kB\nMemAvailable: 25 kB".data)).1.total_kb -
          (memRefresh MemState.init (some "MemTotal: 100 kB\nMemAvailable: 25 kB".data)).1.available_kb)
    ∧ (0 < (memRefresh MemState.init (some "MemTotal: 100 kB\nMemAvailable: 25 kB".data)).1.total_kb ∧
      (memRefresh MemState.init (some "MemTotal: 100 kB\nMemAvailable: 25 kB".data)).1.usage_percent =
        100 * (((memRefresh MemState.init (some "MemTotal: 100 kB\nMemAvailable: 25 kB".data)).1.used_kb : Nat) : ℚ) /
          (((memRefresh MemState.init (some "MemTotal: 100 kB\nMemAvailable: 25 kB".data)).1.total_kb : Nat) : ℚ)) :=
  ⟨⟨by decide, by decide,
    (mem_derivation MemState.init "MemTotal: 100 kB\nMemAvailable: 25 kB".data).1
      (by decide) (by decide)⟩,
   ⟨by decide,
    (mem_derivation MemState.init "MemTotal: 100 kB\nMemAvailable: 25 kB".data).2.1
      (by decide)⟩⟩

theorem memParseLine_apply (m : MemVals) (st : MemState) (line : List Char) :
    memParseLine (memApply m st) line = memApply (memLineUpd m line) st := by
  unfold memParseLine memLineUpd memApply
  rcases h1 : extractWord [] ⟨line, false⟩ with ⟨key, s1⟩
  rcases h2 : extractU 64 0 s1 with ⟨value, s2⟩
  rcases h3 : extractWord [] s2 with ⟨u, s3⟩
  simp only [h1, h2, h3]
  repeat' split
  all_goals rfl

theorem memParse_fold_apply (L : List (List Char)) (m : MemVals) (st : MemState) :
    L.foldl memParseLine (memApply m st) = memApply (L.foldl memLineUpd m) st := by
  induction L generalizing m with
  | nil => rfl
  | cons l L ih => rw [List.foldl_cons, memParseLine_apply, ih, List.foldl_cons]

theorem memParse_char (st : MemState) :
    memParse st = memApply ((splitLines st.raw).foldl memLineUpd MemVals.empty) st := by
  have h := memParse_fold_apply (splitLines st.raw) MemVals.empty st
  exact h

theorem memApply_idem (m : MemVals) (st : MemState) :
    memApply m (memApply m st) = memApply m st := by
  rcases m with ⟨t, f, a, b, c⟩
  cases t <;> cases f <;> cases a <;> cases b <;> cases c <;> rfl

theorem memParse_raw (s : MemState) : (memParse s).raw = s.raw := by
  rw [memParse_char]
  rfl

theorem memCalculate_raw (s : MemState) : (memCalculate s).raw = s.raw := by
  by_cases h : 0 < s.total_kb <;> simp [memCalculate, h]

theorem mem_stale_record (s0 : MemState) :
    ((memCalculate (memParse (memCalculate (memParse s0)))).total_kb =
      (memCalculate (memParse s0)).total_kb)
    ∧ ((memCalculate (memParse (memCalculate (memParse s0)))).used_kb =
      (memCalculate (memParse s0)).used_kb)
    ∧ ((memCalculate (memParse (memCalculate (memParse s0)))).available_kb =
      (memCalculate (memParse s0)).available_kb)
    ∧ ((memCalculate (memParse (memCalculate (memParse s0)))).usage_percent =
      (memCalculate (memParse s0)).usage_percent) := by
  set X := memCalculate (memParse s0) with hX
  set M := (splitLines s0.raw).foldl memLineUpd MemVals.empty with hM
  have hXraw : X.raw = s0.raw := by
    rw [hX, memCalculate_raw, memParse_raw]
  have hP0 : memParse s0 = memApply M s0 := by
    rw [hM]
    exact memParse_char s0
  have hPX : memParse X = memApply M X := by
    have h := memParse_char X
    rw [hXraw] at h
    rw [hM]
    exact h
  obtain ⟨hXt, hXa, hXu⟩ := memCalculate_proj (memParse s0)
  rw [← hX] at hXt hXa hXu
  have hXt' : X.total_kb = M.total.getD s0.total_kb := by
    rw [hXt, hP0]
    rfl
  have hXa' : X.available_kb = M.avail.getD s0.available_kb := by
    rw [hXa, hP0]
    rfl
  have hcolT : (memApply M X).total_kb = X.total_kb := by
    show M.total.getD X.total_kb = X.total_kb
    rw [hXt']
    cases M.total <;> rfl
  have hcolA : (memApply M X).available_kb = X.available_kb := by
    show M.avail.getD X.available_kb = X.available_kb
    rw [hXa']
    cases M.avail <;> rfl
  have hPt : (memParse X).total_kb = X.total_kb := by rw [hPX, hcolT]
  have hPa : (memParse X).available_kb = X.available_kb := by rw [hPX, hcolA]
  have hPu : (memParse X).usage_percent = X.usage_percent := by
    rw [hPX]
    rfl
  refine ⟨?_, ?_, ?_, ?_⟩
  · obtain ⟨hpt, _, _⟩ := memCalculate_proj (memParse X)
    rw [hpt, hPt]
  · obtain ⟨_, _, hpu⟩ := memCalculate_proj (memParse X)
    rw [hpu, hPt, hPa, hXt, hXa, hXu]
  · obtain ⟨_, hpa, _⟩ := memCalculate_proj (memParse X)
    rw [hpa, hPa]
  · rw [memCalculate_usage (memParse X), hPt, hPa, hPu]
    have hXusage := memCalculate_usage (memParse s0)
    rw [← hX] at hXusage
    by_cases hpos : 0 < X.total_kb
    · rw [if_pos hpos, hXusage, hXt, hXa]
      have hpos2 : 0 < (memParse s0).total_kb := by
        rw [← hXt]
        exact hpos
      rw [if_pos hpos2]
    · rw [if_neg hpos]

theorem cpu_stale_usage (s : CPUState) :
    (cpuCalculate (cpuParse (cpuCalculate (cpuParse s)))).usage_percent =
      (cpuCalculate (cpuParse s)).usage_percent := by
  by_cases h : s.raw = []
  · have hp : cpuParse s = s := by simp [cpuParse, h]
    rw [hp]
    have hraw : (cpuCalculate s).raw = [] := by
      rw [(cpuCalculate_proj s).2.2.2.2, h]
    have hp2 : cpuParse (cpuCalculate s) = cpuCalculate s := by
      simp [cpuParse, hraw]
    rw [hp2]
    obtain ⟨h1, h2, h3, h4, _⟩ := cpuCalculate_proj s
    rw [cpuCalculate_usage_eq (cpuCalculate s), h1, h2, h3, h4, cpuCalculate_usage_eq s]
    by_cases hd : 0 < (s.curr_total + W64 - s.prev_total) % W64
    · rw [if_pos hd, if_pos hd]
    · rw [if_neg hd, if_neg hd]
  · have hp := cpuParse_record s h
    have hraw2 : (cpuCalculate (cpuParse s)).raw = s.raw := by
      rw [(cpuCalculate_proj (cpuParse s)).2.2.2.2, hp]
    have h2 : ¬ (cpuCalculate (cpuParse s)).raw = [] := by
      rw [hraw2]
      exact h
    rw [cpuParse_record _ h2, cpuCalculate_usage_eq]
    simp only
    rw [hraw2]
    have hc : (cpuCalculate (cpuParse s)).curr_total = (cpuReadCounters s.raw).totalTicks := by
      rw [(cpuCalculate_proj (cpuParse s)).1, hp]
    rw [hc, Nat.add_sub_cancel_left, Nat.mod_self]
    simp

theorem extractDouble_stream (a b : ℚ) (st : IStream) :
    (extractDouble a st).2 = (extractDouble b st).2 := by
  unfold extractDouble
  by_cases hf : st.fail = true
  · simp [hf]
  · simp only [Bool.not_eq_true] at hf
    rcases hsk : skipWs st.str with _ | ⟨c, cs⟩ <;> simp [hf, hsk]

theorem extractDouble_idem (a : ℚ) (st : IStream) :
    extractDouble (extractDouble a st).1 st = extractDouble a st := by
  by_cases hf : st.fail = true
  · simp [extractDouble, hf]
  · rcases hsk : skipWs st.str with _ | ⟨c, cs⟩
    · simp only [Bool.not_eq_true] at hf
      simp [extractDouble, hf, hsk]
    · simp only [Bool.not_eq_true] at hf
      conv_lhs => rw [show (extractDouble a st).1 = (extractDouble a st).1 from rfl]
      unfold extractDouble
      simp only [hf, hsk]
      rfl

theorem extractDouble_pair (a v : ℚ) (t : IStream) (st : IStream)
    (h : extractDouble a st = (v, t)) : extractDouble v st = (v, t) := by
  have h2 := extractDouble_idem a st
  rw [h] at h2
  rw [h2]

theorem sysParse_ok_idem {s s' : SysState} (h : sysParse s = .ok s') :
    sysParse s' = .ok s' := by
  rcases s with ⟨raw, up, a1, a5, a15, rt, tt⟩
  unfold sysParse at h
  dsimp only at h
  rcases hd1 : extractDouble a1 ⟨raw, false⟩ with ⟨l1, s1⟩
  rcases hd5 : extractDouble a5 s1 with ⟨l5, s2⟩
  rcases hd15 : extractDouble a15 s2 with ⟨l15, s3⟩
  rcases hw : extractWord [] s3 with ⟨rs, s4⟩
  simp only [hd1, hd5, hd15, hw] at h
  have e1 : extractDouble l1 ⟨raw, false⟩ = (l1, s1) := extractDouble_pair a1 l1 s1 _ hd1
  have e5 : extractDouble l5 s1 = (l5, s2) := extractDouble_pair a5 l5 s2 _ hd5
  have e15 : extractDouble l15 s2 = (l15, s3) := extractDouble_pair a15 l15 s3 _ hd15
  cases hk : findIdxOf '/' rs with
  | none =>
    simp only [hk, Except.ok.injEq] at h
    subst h
    unfold sysParse
    dsimp only
    simp only [e1, e5, e15, hw, hk]
  | some p =>
    simp only [hk] at h
    cases hr : stoiE (rs.take p) with
    | error err =>
      simp [hr] at h
    | ok r =>
      simp only [hr] at h
      cases ht2 : stoiE (rs.drop (p + 1)) with
      | error err =>
        simp [ht2] at h
      | ok t =>
        simp only [ht2, Except.ok.injEq] at h
        subst h
        unfold sysParse
        dsimp only
        simp only [e1, e5, e15, hw, hk, hr, ht2]

/-- C3 counterexample: when both of the system collector's sources cannot
be opened, its refresh leaves the record unchanged but logs nothing —
`SystemCollector::do_collect` has no `LOG_ERROR` call, contradicting the
claim that every collector logs the failure. -/
theorem sys_unreachable_logs_nothing :
    sysRefresh SysState.init none none = .ok (SysState.init, false) := rfl

/-- C3 amended: when a kernel source cannot be opened, every collector's
refresh returns normally and leaves its record unchanged from the previous
tick (and at the default values on the first tick), arbitrarily often in a
row; the CPU, memory, disk, network and process collectors log the
failure, while the system collector logs nothing. -/
theorem collectors_stale_source_behavior :
    ((∀ s : CPUState, (cpuRefresh s none).2 = true) ∧
      (∀ (st : CPUState) (src : Option (List Char)),
        (cpuRefresh (cpuRefresh st src).1 none).1.usage_percent =
          (cpuRefresh st src).1.usage_percent) ∧
      cpuRefresh CPUState.init none = (CPUState.init, true))
    ∧ ((∀ s : MemState, (memRefresh s none).2 = true) ∧
      (∀ (st : MemState) (src : Option (List Char)),
        (memRefresh (memRefresh st src).1 none).1.total_kb = (memRefresh st src).1.total_kb ∧
        (memRefresh (memRefresh st src).1 none).1.used_kb = (memRefresh st src).1.used_kb ∧
        (memRefresh (memRefresh st src).1 none).1.available_kb =
          (memRefresh st src).1.available_kb ∧
        (memRefresh (memRefresh st src).1 none).1.usage_percent =
          (memRefresh st src).1.usage_percent) ∧
      memRefresh MemState.init none = (MemState.init, true))
    ∧ ((∀ s : DiskState, (diskRefresh s none).2 = true) ∧
      (∀ (st : DiskState) (src : Option (List Char)),
        (diskRefresh (diskRefresh st src).1 none).1.disks = (diskRefresh st src).1.disks) ∧
      diskRefresh DiskState.init none = (DiskState.init, true))
    ∧ ((∀ s : NetState, (netRefresh s none).2 = true) ∧
      (∀ (st : NetState) (src : Option (List Char)),
        (netRefresh (netRefresh st src).1 none).1.interfaces =
          (netRefresh st src).1.interfaces) ∧
      netRefresh NetState.init none = (NetState.init, true))
    ∧ ((∀ s : ProcState, procRefresh s none = .ok ({ s with raw := [] }, true)) ∧
      procRefresh ProcState.init none = .ok (ProcState.init, true))
    ∧ ((∀ (s : SysState) (u l : Option (List Char)) (s1 : SysState) (b : Bool),
        sysRefresh s u l = .ok (s1, b) → sysRefresh s1 none none = .ok (s1, false)) ∧
      sysRefresh SysState.init none none = .ok (SysState.init, false)) := by
  refine ⟨⟨fun s => rfl, ?_, rfl⟩, ⟨fun s => rfl, ?_, rfl⟩, ⟨fun s => rfl, ?_, rfl⟩,
    ⟨fun s => rfl, ?_, rfl⟩, ⟨fun s => rfl, rfl⟩, ⟨?_, rfl⟩⟩
  · intro st src
    cases src with
    | none => exact cpu_stale_usage st
    | some c => exact cpu_stale_usage { st with raw := firstLine c }
  · intro st src
    cases src with
    | none => exact mem_stale_record st
    | some c => exact mem_stale_record { st with raw := c }
  · intro st src
    cases src <;> rfl
  · intro st src
    cases src <;> rfl
  · intro s u l s1 b h
    unfold sysRefresh at h ⊢
    cases hp : sysParse (sysCollect s u l) with
    | error e =>
      rw [hp] at h
      cases h
    | ok st1 =>
      rw [hp] at h
      simp only [Except.ok.injEq, Prod.mk.injEq] at h
      obtain ⟨h1, _h2⟩ := h
      subst h1
      have hidem := sysParse_ok_idem hp
      rw [show sysCollect st1 none none = st1 from rfl, hidem]

/-- C3 witness: the system-collector part of the staleness theorem applied
at a concrete successful refresh of the load-average source. -/
theorem collectors_stale_witness :
    sysRefresh SysState.init none (some "1 2 3 2/150".data) =
      .ok ({ raw := "1 2 3 2/150".data, uptime_seconds := 0, load_1min := ((1 : Nat) : ℚ),
               load_5min := ((2 : Nat) : ℚ), load_15min := ((3 : Nat) : ℚ),
               running_tasks := 2, total_tasks := 150 }, false)
    ∧ sysRefresh { raw := "1 2 3 2/150".data, uptime_seconds := 0,
                     load_1min := ((1 : Nat) : ℚ), load_5min := ((2 : Nat) : ℚ),
                     load_15min := ((3 : Nat) : ℚ), running_tasks := 2,
                     total_tasks := 150 } none none =
      .ok ({ raw := "1 2 3 2/150".data, uptime_seconds := 0, load_1min := ((1 : Nat) : ℚ),
               load_5min := ((2 : Nat) : ℚ), load_15min := ((3 : Nat) : ℚ),
               running_tasks := 2, total_tasks := 150 }, false) :=
  ⟨rfl, collectors_stale_source_behavior.2.2.2.2.2.1 SysState.init none
    (some "1 2 3 2/150".data) _ false rfl⟩

theorem sysParse_isOk (s : SysState) (h : sysLoadTextOK s.raw = true) :
    (sysParse s).isOk = true := by
  rcases hd1 : extractDouble s.load_1min ⟨s.raw, false⟩ with ⟨l1, s1⟩
  rcases hd5 : extractDouble s.load_5min s1 with ⟨l5, s2⟩
  rcases hd15 : extractDouble s.load_15min s2 with ⟨l15, s3⟩
  rcases hw : extractWord [] s3 with ⟨rs, s4⟩
  rcases he1 : extractDouble 0 ⟨s.raw, false⟩ with ⟨z1, t1⟩
  have ht1 : t1 = s1 := by
    have hh := extractDouble_stream 0 s.load_1min ⟨s.raw, false⟩
    rw [he1, hd1] at hh
    exact hh
  rw [ht1] at he1
  rcases he5 : extractDouble 0 s1 with ⟨z5, t2⟩
  have ht2 : t2 = s2 := by
    have hh := extractDouble_stream 0 s.load_5min s1
    rw [he5, hd5] at hh
    exact hh
  rw [ht2] at he5
  rcases he15 : extractDouble 0 s2 with ⟨z15, t3⟩
  have ht3 : t3 = s3 := by
    have hh := extractDouble_stream 0 s.load_15min s2
    rw [he15, hd15] at hh
    exact hh
  rw [ht3] at he15
  unfold sysLoadTextOK sysRunningStr at h
  simp only [he1, he5, he15, hw] at h
  unfold sysParse
  simp only [hd1, hd5, hd15, hw]
  cases hk : findIdxOf '/' rs with
  | none =>
    simp only [hk]
    rfl
  | some p =>
    simp only [hk, Bool.and_eq_true] at h
    obtain ⟨ha, hb⟩ := h
    simp only [hk]
    cases hr : stoiE (rs.take p) with
    | error err =>
      rw [hr] at ha
      cases ha
    | ok r =>
      cases ht : stoiE (rs.drop (p + 1)) with
      | error err =>
        rw [ht] at hb
        cases hb
      | ok t =>
        simp only [hr, ht]
        rfl

theorem procParseStat_ok (pid : Int) (content : List Char)
    (h : statContentOK content = true) (hne : ¬ content = []) :
    (procParseStat pid (firstLine content)).isOk = true := by
  unfold statContentOK at h
  rw [if_neg hne] at h
  unfold procParseStat
  cases hs : findIdxOf '(' (firstLine content) with
  | none =>
    simp only [hs]
    rfl
  | some start =>
    cases he : rfindIdx ')' (firstLine content) with
    | none =>
      simp only [hs, he]
      rfl
    | some stop =>
      simp only [hs, he] at h ⊢
      have hle : stop + 2 ≤ (firstLine content).length := of_decide_eq_true h
      have hsub : substrFromE (firstLine content) (stop + 2) =
          .ok ((firstLine content).drop (stop + 2)) := by
        unfold substrFromE
        rw [if_pos hle]
      simp only [hsub]
      rfl

theorem procScanEntry_ok (acc : ProcAcc) (e : DirEntry) (h : procEntryOK e = true) :
    (procScanEntry acc e).isOk = true := by
  unfold procEntryOK at h
  unfold procScanEntry
  by_cases hd : e.isDir = true
  · by_cases hn : (!e.name.isEmpty && e.name.all isDigitC) = true
    · rw [if_pos hd, if_pos hn]
      rw [if_pos (by rw [hd, hn]; rfl)] at h
      rw [Bool.and_eq_true] at h
      obtain ⟨h1, h2⟩ := h
      cases hst : stoiE e.name with
      | error err =>
        rw [hst] at h1
        cases h1
      | ok pid =>
        cases hstat : e.stat with
        | none =>
          simp only [hst, hstat]
          rfl
        | some content =>
          rw [hstat] at h2
          simp only at h2
          by_cases hc : content = []
          · simp only [hst, hstat, if_pos hc]
            rfl
          · simp only [hst, hstat, if_neg hc]
            have hp := procParseStat_ok pid content h2 hc
            cases hpp : procParseStat pid (firstLine content) with
            | error err =>
              rw [hpp] at hp
              cases hp
            | ok oinfo =>
              cases oinfo <;> simp only [hpp] <;> rfl
    · rw [if_pos hd, if_neg hn]
      rfl
  · rw [if_neg hd]
    rfl

theorem procFold_ok (entries : List DirEntry) (acc : ProcAcc)
    (h : entries.all procEntryOK = true) :
    (entries.foldlM procScanEntry acc).isOk = true := by
  induction entries generalizing acc with
  | nil => rfl
  | cons e es ih =>
    rw [List.all_cons, Bool.and_eq_true] at h
    rw [List.foldlM_cons]
    cases hstep : procScanEntry acc e with
    | error err =>
      have hok := procScanEntry_ok acc e h.1
      rw [hstep] at hok
      cases hok
    | ok acc1 =>
      simp only [hstep, Bind.bind, Except.bind]
      exact ih acc1 h.2

/-- C9 counterexample: one tick in which every source except the
load-average text is healthy, but the load-average task token is `/150`;
the system collector's `std::stoi` raises `std::invalid_argument`, the
exception crosses the collector boundary, and none of the other five
collectors refresh in that tick (the tick aborts with the error). -/
theorem tick_malformed_loadavg_raises :
    tickAll MonitorState.init
      { uptime := none, loadavg := some "1 2 3 /150".data,
        cpuSrc := some "cpu 1 0 0 1 0 0 0 0".data, memSrc := some "MemTotal: 100 kB".data,
        diskSrc := some "8 0 sda 5 0 0 0 7 0 0 0".data,
        netSrc := some "a\nb\n eth0: 1 1 0 0 0 0 0 0 1 1".data,
        procDir := some [] } = .error .invalidArgument := rfl

/-- C9 amended: a tick raises no error provided the system collector's
task token is accepted by `std::stoi` (or has no slash) and every process
directory entry is benign (pid fits in `int`, stat line's last `')'` is
not at the very end); the CPU, memory, disk and network collectors never
raise for any input, and unreachable sources never raise. -/
theorem tick_ok_of_wellformed (st : MonitorState) (inp : TickInputs)
    (hsys : sysLoadTextOK (sysCollect st.sys inp.uptime inp.loadavg).raw = true)
    (hproc : procDirOK inp.procDir = true) :
    (tickAll st inp).isOk = true := by
  unfold tickAll
  have hs := sysParse_isOk (sysCollect st.sys inp.uptime inp.loadavg) hsys
  cases hp : sysParse (sysCollect st.sys inp.uptime inp.loadavg) with
  | error e =>
    rw [hp] at hs
    cases hs
  | ok s1 =>
    have hr : sysRefresh st.sys inp.uptime inp.loadavg = .ok (s1, false) := by
      unfold sysRefresh
      rw [hp]
    rw [hr]
    cases hd : inp.procDir with
    | none =>
      simp only [procRefresh, procParse]
      rfl
    | some entries =>
      rw [hd] at hproc
      unfold procDirOK at hproc
      have hf := procFold_ok entries ⟨[], 0, 0⟩ hproc
      cases hff : List.foldlM procScanEntry ⟨[], 0, 0⟩ entries with
      | error e =>
        rw [hff] at hf
        cases hf
      | ok acc =>
        simp only [procRefresh, procParse, hff]
        rfl

/-- C9 witness: a fully healthy concrete tick satisfies both
well-formedness conditions and succeeds. -/
theorem tick_ok_witness :
    sysLoadTextOK (sysCollect MonitorState.init.sys none (some "1 2 3 2/150".data)).raw = true
    ∧ procDirOK (some [⟨true, "3".data, some "3 (x) R 1".data⟩]) = true
    ∧ (tickAll MonitorState.init
        { uptime := none, loadavg := some "1 2 3 2/150".data,
          cpuSrc := some "cpu 1 0 0 1 0 0 0 0".data, memSrc := some "MemTotal: 100 kB".data,
          diskSrc := some "8 0 sda 5 0 0 0 7 0 0 0".data,
          netSrc := some "a\nb\n eth0: 1 1 0 0 0 0 0 0 1 1".data,
          procDir := some [⟨true, "3".data, some "3 (x) R 1".data⟩] }).isOk = true :=
  ⟨by decide, by decide,
   tick_ok_of_wellformed MonitorState.init
     { uptime := none, loadavg := some "1 2 3 2/150".data,
       cpuSrc := some "cpu 1 0 0 1 0 0 0 0".data, memSrc := some "MemTotal: 100 kB".data,
       diskSrc := some "8 0 sda 5 0 0 0 7 0 0 0".data,
       netSrc := some "a\nb\n eth0: 1 1 0 0 0 0 0 0 1 1".data,
       procDir := some [⟨true, "3".data, some "3 (x) R 1".data⟩] } (by decide) (by decide)⟩
